import Mathlib

/-!
# UglyDataStructures: queue, stack and ring buffer over the shared container

Shallow embedding of `src/structs/queue/queue.c`, `src/structs/stack/stack.c`
and `src/structs/rb/ring_buffer.c`.

Conventions of the embedding
* a handle is a value; the non-null preconditions guarded by `UC_ASSERT` are
  carried by the types (a `queue_t` always has its container and its meta block);
* an output parameter `void *data` is a pair "content before the call" (argument)
  and "content after the call" (component of the result);
* `size_t` is 64 bits wide and `int` 32 bits wide; cursor arithmetic is done on
  `Nat`/`Int` with the reductions written out;
* whether an allocation made by the storage engine succeeds is decided by the
  environment and is an explicit argument (`alloc_ok`).
-/

namespace UDS

/-! ## Storage engine (core/container.h) -/

/-- One stored element: the bytes of the value, as copied in and out by the container. -/
abbrev Elem := List Nat

/-- The tag selecting the backing strategy of a container (`container_type_t`). -/
inductive container_type_t where
  | CONTAINER_VECTOR_BASED
  | CONTAINER_LINKED_LIST_BASED
deriving DecidableEq, Repr

/-- Modelled from the spec: the handle type of `core/container.h`, which is not part of the
sources at hand. Per section 3 it owns the backing-strategy tag, the fixed element size and
the stored elements in logical order. -/
structure container_t where
  strategy : container_type_t
  esize : Nat
  elems : List Elem
deriving DecidableEq, Repr

/-- Modelled from the spec: `container_create` of `core/container.h` (section 4.1 `create`).
It fails if the element size is zero, if no valid allocator is installed or if the allocation
fails; otherwise the new container is empty. -/
def container_create (esize : Nat) (strategy : container_type_t)
    (allocator_valid alloc_ok : Bool) : Option container_t :=
  if esize = 0 ∨ allocator_valid = false ∨ alloc_ok = false then none
  else some { strategy := strategy, esize := esize, elems := [] }

/-- Modelled from the spec: `container_push_back` of `core/container.h` (section 4.1
`push_back`). It appends one element at the logical end; failure is reserved for allocation
exhaustion and mutates nothing. -/
def container_push_back (c : container_t) (data : Elem) (alloc_ok : Bool) :
    container_t × Bool :=
  if alloc_ok then ({ c with elems := c.elems ++ [data] }, true) else (c, false)

/-- Modelled from the spec: `container_pop_front` of `core/container.h` (section 4.1
`pop_front`). It removes and copies out the logical first element; on an empty container it
returns false and leaves `out` alone. -/
def container_pop_front (c : container_t) (out : Elem) : container_t × Elem × Bool :=
  match c.elems with
  | [] => (c, out, false)
  | x :: xs => ({ c with elems := xs }, x, true)

/-- Modelled from the spec: `container_pop_back` of `core/container.h` (section 4.1
`pop_back`). It removes and copies out the logical last element, with the same contract on an
empty container as `pop_front`. -/
def container_pop_back (c : container_t) (out : Elem) : container_t × Elem × Bool :=
  match c.elems.getLast? with
  | none => (c, out, false)
  | some x => ({ c with elems := c.elems.dropLast }, x, true)

/-- Modelled from the spec: `container_at` of `core/container.h` (section 4.1 `at`). It copies
the element at the zero-based logical index into `out` without removing it and returns false
when the index is out of bounds. -/
def container_at (c : container_t) (out : Elem) (index : Nat) : Elem × Bool :=
  match c.elems.get? index with
  | none => (out, false)
  | some x => (x, true)

/-- Modelled from the spec: `container_replace` of `core/container.h` (section 4.1 `replace`).
It overwrites the element at the logical index in place and returns false when the index is
out of bounds. -/
def container_replace (c : container_t) (data : Elem) (index : Nat) : container_t × Bool :=
  if index < c.elems.length then ({ c with elems := c.elems.set index data }, true)
  else (c, false)

/-- Modelled from the spec: `container_size` of `core/container.h` (section 4.1 `size`), the
current element count. -/
def container_size (c : container_t) : Nat := c.elems.length

/-- Modelled from the spec: `container_clear` of `core/container.h` (section 4.1 `clear`). It
resets the logical size to zero; the spec names no failure condition for it. -/
def container_clear (c : container_t) : container_t × Bool :=
  ({ c with elems := [] }, true)

/-! ## Construction results -/

/-- The blocks and handles a constructor acquires through the allocator provider. -/
inductive resource_t where
  | handle_block
  | scratch_block
  | storage
  | meta_block
deriving DecidableEq, Repr

/-- One step of resource traffic of a constructor. -/
inductive mem_event where
  | acquire (r : resource_t)
  | release (r : resource_t)
deriving DecidableEq, Repr

/-- What a constructor call does: either a `UC_ASSERT` fires, or the call returns a handle
(`none` is `NULL`) after the listed resource traffic. -/
inductive create_result (α : Type) where
  | assert_failed
  | returned (handle : Option α) (events : List mem_event)
deriving DecidableEq, Repr

/-! ## Queue (src/structs/queue/queue.c) -/

/-- The private block of a queue (`qmeta_t`). -/
structure qmeta_t where
  capacity : Nat
deriving DecidableEq, Repr

/-- A queue handle (`queue_t`, an alias of `ds_t`): the container and the meta block. -/
structure queue_t where
  container : container_t
  meta : qmeta_t
deriving DecidableEq, Repr

/-- The function `queue_create`. The assertion on `esize` comes first, then the allocator
probe; `alloc_ok i` tells whether the allocation step number `i` of this call succeeds
(0: handle block, 1: container, 2: meta block). -/
def queue_create (size esize : Nat) (allocator_valid : Bool) (alloc_ok : Nat → Bool) :
    create_result queue_t :=
  if esize = 0 then .assert_failed
  else if allocator_valid = false then .returned none []
  else if alloc_ok 0 = false then .returned none []
  else
    match container_create esize .CONTAINER_LINKED_LIST_BASED allocator_valid (alloc_ok 1) with
    | none => .returned none [.acquire .handle_block, .release .handle_block]
    | some c =>
      if alloc_ok 2 = false then
        .returned none [.acquire .handle_block, .acquire .storage,
          .release .storage, .release .handle_block]
      else
        .returned (some { container := c, meta := { capacity := size } })
          [.acquire .handle_block, .acquire .storage, .acquire .meta_block]

/-- The function `queue_empty`. -/
def queue_empty (queue : queue_t) : Bool :=
  decide (container_size queue.container = 0)

/-- The function `queue_full`. -/
def queue_full (queue : queue_t) : Bool :=
  let size := queue.meta.capacity
  if size ≠ 0 then decide (container_size queue.container = size) else false

/-- The function `queue_add`; `alloc_ok` is the outcome of the allocation `push_back` may
need. -/
def queue_add (queue : queue_t) (data : Elem) (alloc_ok : Bool) : queue_t × Bool :=
  if !queue_full queue then
    let r := container_push_back queue.container data alloc_ok
    ({ queue with container := r.1 }, r.2)
  else (queue, false)

/-- The function `queue_get`; `data` is the content of the output location before the call. -/
def queue_get (queue : queue_t) (data : Elem) : queue_t × Elem × Bool :=
  let r := container_pop_front queue.container data
  ({ queue with container := r.1 }, r.2.1, r.2.2)

/-- The function `queue_peek`. -/
def queue_peek (queue : queue_t) (data : Elem) : Elem × Bool :=
  container_at queue.container data 0

/-- The function `queue_size`. -/
def queue_size (queue : queue_t) : Nat :=
  container_size queue.container

/-- The function `queue_clear`. -/
def queue_clear (queue : queue_t) : queue_t × Bool :=
  let r := container_clear queue.container
  ({ queue with container := r.1 }, r.2)

/-- Calls `queue_add` on the elements of `vs` in order, every `push_back` being granted its
allocation; returns the final queue and the return values in call order. -/
def queue_add_all (queue : queue_t) : List Elem → queue_t × List Bool
  | [] => (queue, [])
  | v :: vs =>
    let r := queue_add queue v true
    let rest := queue_add_all r.1 vs
    (rest.1, r.2 :: rest.2)

/-- Calls `queue_get` `n` times in a row, each time on an output location holding `out`;
returns the final queue and, per call, the return value and the content of the output
location after it. -/
def queue_get_n (queue : queue_t) (out : Elem) : Nat → queue_t × List (Bool × Elem)
  | 0 => (queue, [])
  | n + 1 =>
    let r := queue_get queue out
    let rest := queue_get_n r.1 out n
    (rest.1, (r.2.2, r.2.1) :: rest.2)

/-- One call of the public queue interface, as it occurs in a history of calls. -/
inductive queue_op where
  | add (data : Elem) (alloc_ok : Bool)
  | get (out : Elem)
  | peek (out : Elem)
  | clear
deriving DecidableEq, Repr

/-- The queue after one call of the public interface. -/
def queue_step (queue : queue_t) : queue_op → queue_t
  | .add data alloc_ok => (queue_add queue data alloc_ok).1
  | .get out => (queue_get queue out).1
  | .peek _ => queue
  | .clear => (queue_clear queue).1

/-- The queue after a history of calls. -/
def queue_run (queue : queue_t) (ops : List queue_op) : queue_t :=
  ops.foldl queue_step queue

/-! ## Stack (src/structs/stack/stack.c) -/

/-- Number of values of the type `size_t`. -/
def SIZE_T_MOD : Nat := 2 ^ 64

/-- Subtraction of two `size_t` values, which wraps around. -/
def size_t_sub (a b : Nat) : Nat :=
  (a % SIZE_T_MOD + SIZE_T_MOD - b % SIZE_T_MOD) % SIZE_T_MOD

/-- The private block of a stack (`smeta_t`). -/
structure smeta_t where
  capacity : Nat
deriving DecidableEq, Repr

/-- A stack handle (`stack_t`, an alias of `ds_t`): the container and the meta block. -/
structure stack_t where
  container : container_t
  meta : smeta_t
deriving DecidableEq, Repr

/-- The function `stack_create`, with the same reading of `alloc_ok` as for
`queue_create`. -/
def stack_create (size esize : Nat) (allocator_valid : Bool) (alloc_ok : Nat → Bool) :
    create_result stack_t :=
  if esize = 0 then .assert_failed
  else if allocator_valid = false then .returned none []
  else if alloc_ok 0 = false then .returned none []
  else
    match container_create esize .CONTAINER_VECTOR_BASED allocator_valid (alloc_ok 1) with
    | none => .returned none [.acquire .handle_block, .release .handle_block]
    | some c =>
      if alloc_ok 2 = false then
        .returned none [.acquire .handle_block, .acquire .storage,
          .release .storage, .release .handle_block]
      else
        .returned (some { container := c, meta := { capacity := size } })
          [.acquire .handle_block, .acquire .storage, .acquire .meta_block]

/-- The function `stack_full`. -/
def stack_full (stack : stack_t) : Bool :=
  let size := stack.meta.capacity
  if size ≠ 0 then decide (container_size stack.container = size) else false

/-- The function `stack_push`; `alloc_ok` is the outcome of the allocation `push_back` may
need. -/
def stack_push (stack : stack_t) (data : Elem) (alloc_ok : Bool) : stack_t × Bool :=
  if !stack_full stack then
    let r := container_push_back stack.container data alloc_ok
    ({ stack with container := r.1 }, r.2)
  else (stack, false)

/-- The function `stack_pop`; `data` is the content of the output location before the call. -/
def stack_pop (stack : stack_t) (data : Elem) : stack_t × Elem × Bool :=
  let r := container_pop_back stack.container data
  ({ stack with container := r.1 }, r.2.1, r.2.2)

/-- The function `stack_peek`; the index `size - 1` is computed in `size_t`. -/
def stack_peek (stack : stack_t) (data : Elem) : Elem × Bool :=
  container_at stack.container data (size_t_sub (container_size stack.container) 1)

/-- The function `stack_size`. -/
def stack_size (stack : stack_t) : Nat :=
  container_size stack.container

/-- The function `stack_empty`. -/
def stack_empty (stack : stack_t) : Bool :=
  decide (container_size stack.container = 0)

/-- The function `stack_clear`. -/
def stack_clear (stack : stack_t) : stack_t × Bool :=
  let r := container_clear stack.container
  ({ stack with container := r.1 }, r.2)

/-- Calls `stack_push` on the elements of `vs` in order, every `push_back` being granted its
allocation; returns the final stack and the return values in call order. -/
def stack_push_all (stack : stack_t) : List Elem → stack_t × List Bool
  | [] => (stack, [])
  | v :: vs =>
    let r := stack_push stack v true
    let rest := stack_push_all r.1 vs
    (rest.1, r.2 :: rest.2)

/-- Calls `stack_pop` `n` times in a row, each time on an output location holding `out`;
returns the final stack and, per call, the return value and the content of the output
location after it. -/
def stack_pop_n (stack : stack_t) (out : Elem) : Nat → stack_t × List (Bool × Elem)
  | 0 => (stack, [])
  | n + 1 =>
    let r := stack_pop stack out
    let rest := stack_pop_n r.1 out n
    (rest.1, (r.2.2, r.2.1) :: rest.2)

/-- One call of the public stack interface, as it occurs in a history of calls. -/
inductive stack_op where
  | push (data : Elem) (alloc_ok : Bool)
  | pop (out : Elem)
  | peek (out : Elem)
  | clear
deriving DecidableEq, Repr

/-- The stack after one call of the public interface. -/
def stack_step (stack : stack_t) : stack_op → stack_t
  | .push data alloc_ok => (stack_push stack data alloc_ok).1
  | .pop out => (stack_pop stack out).1
  | .peek _ => stack
  | .clear => (stack_clear stack).1

/-- The stack after a history of calls. -/
def stack_run (stack : stack_t) (ops : List stack_op) : stack_t :=
  ops.foldl stack_step stack

/-! ## Ring buffer (src/structs/rb/ring_buffer.c) -/

/-- Conversion of a `size_t` value to `int`: the low 32 bits read in two's complement. -/
def size_t_to_int (x : Nat) : Int :=
  if x % 2 ^ 32 < 2 ^ 31 then Int.ofNat (x % 2 ^ 32)
  else Int.ofNat (x % 2 ^ 32) - Int.ofNat (2 ^ 32)

/-- The library function `abs` on `int`. The C standard leaves `abs(INT_MIN)` undefined; the
model takes `INT_MIN`, which is what the two's-complement negation yields. -/
def c_abs (i : Int) : Int :=
  if i = -Int.ofNat (2 ^ 31) then i else if i < 0 then -i else i

/-- Conversion of an `int` to `size_t`, as done for an `int` operand that meets a `size_t`
operand or is returned as `size_t`. -/
def int_to_size_t (i : Int) : Nat :=
  (i % Int.ofNat (2 ^ 64)).toNat

/-- The private block of a ring buffer (`rbmeta_t`). -/
structure rbmeta_t where
  tail : Nat
  head : Nat
  max_size : Nat
deriving DecidableEq, Repr

/-- A ring buffer handle (`ring_buffer_t`, an alias of `ds_t`). -/
structure ring_buffer_t where
  container : container_t
  meta : rbmeta_t
deriving DecidableEq, Repr

/-- Pushes the zeroed scratch element `n` times, as the loop of `rb_create` does; `i` is the
number of the allocation step of the next `push_back`. The result is `none` as soon as one
`push_back` fails. -/
def rb_prefill (data : Elem) (alloc_ok : Nat → Bool) :
    container_t → Nat → Nat → Option container_t
  | c, _, 0 => some c
  | c, i, n + 1 =>
    let r := container_push_back c data (alloc_ok i)
    if r.2 = false then none else rb_prefill data alloc_ok r.1 (i + 1) n

/-- The function `rb_create`. Both assertions come first, then the allocator probe;
`alloc_ok i` tells whether the allocation step number `i` of this call succeeds (0: handle
block, 1: scratch element, 2: container, 3 .. size + 2: the `push_back` calls, size + 3: meta
block). -/
def rb_create (size esize : Nat) (allocator_valid : Bool) (alloc_ok : Nat → Bool) :
    create_result ring_buffer_t :=
  if esize = 0 then .assert_failed
  else if size = 0 then .assert_failed
  else if allocator_valid = false then .returned none []
  else if alloc_ok 0 = false then .returned none []
  else if alloc_ok 1 = false then .returned none [.acquire .handle_block]
  else
    match container_create esize .CONTAINER_VECTOR_BASED allocator_valid (alloc_ok 2) with
    | none => .returned none [.acquire .handle_block, .acquire .scratch_block]
    | some c =>
      match rb_prefill (List.replicate esize 0) alloc_ok c 3 size with
      | none =>
        .returned none [.acquire .handle_block, .acquire .scratch_block, .acquire .storage]
      | some c1 =>
        if alloc_ok (size + 3) = false then
          .returned none [.acquire .handle_block, .acquire .scratch_block, .acquire .storage,
            .release .storage, .release .scratch_block, .release .handle_block]
        else
          .returned (some { container := c1, meta := { tail := 0, head := 0, max_size := size } })
            [.acquire .handle_block, .acquire .scratch_block, .acquire .storage,
              .acquire .meta_block]

/-- The state returned by a successful `rb_create`: `size` zeroed slots and both cursors at
zero. -/
def rb_fresh (size esize : Nat) : ring_buffer_t :=
  { container := { strategy := .CONTAINER_VECTOR_BASED, esize := esize,
                   elems := List.replicate size (List.replicate esize 0) },
    meta := { tail := 0, head := 0, max_size := size } }

/-- The expression `abs((int)(meta->tail - meta->head))` that `rb_size`, `rb_is_empty` and
`rb_is_full` share. -/
def rb_abs_diff (rb : ring_buffer_t) : Int :=
  c_abs (size_t_to_int (size_t_sub rb.meta.tail rb.meta.head))

/-- The function `rb_size`. -/
def rb_size (rb : ring_buffer_t) : Nat :=
  int_to_size_t (rb_abs_diff rb)

/-- The function `rb_is_empty`. -/
def rb_is_empty (rb : ring_buffer_t) : Bool :=
  decide (rb_abs_diff rb = 0)

/-- The function `rb_is_full`; the comparison is made in `size_t`. -/
def rb_is_full (rb : ring_buffer_t) : Bool :=
  decide (size_t_sub rb.meta.max_size 1 ≤ int_to_size_t (rb_abs_diff rb))

/-- The function `rb_add`. -/
def rb_add (rb : ring_buffer_t) (data : Elem) : ring_buffer_t × Bool :=
  if rb_is_full rb then (rb, false)
  else
    let r := container_replace rb.container data rb.meta.head
    if r.2 = false then ({ rb with container := r.1 }, false)
    else
      ({ container := r.1,
         meta := { rb.meta with
           head := ((rb.meta.head + 1) % SIZE_T_MOD) % rb.meta.max_size } }, true)

/-- The function `rb_get`; `data` is the content of the output location before the call. The
third component is the value returned: `some false` on the two refusing paths, `none` on the
path that copies the slot out and advances `tail`, where the source reaches the end of the
function body without a `return` statement. -/
def rb_get (rb : ring_buffer_t) (data : Elem) : ring_buffer_t × Elem × Option Bool :=
  if rb_is_empty rb then (rb, data, some false)
  else
    let r := container_at rb.container data rb.meta.tail
    if r.2 = false then (rb, r.1, some false)
    else
      ({ rb with meta := { rb.meta with
           tail := ((rb.meta.tail + 1) % SIZE_T_MOD) % rb.meta.max_size } }, r.1, none)

/-- The function `rb_peek`. -/
def rb_peek (rb : ring_buffer_t) (data : Elem) : Elem × Bool :=
  if rb_is_empty rb then (data, false)
  else container_at rb.container data rb.meta.tail

/-- The function `rb_clear`. -/
def rb_clear (rb : ring_buffer_t) : ring_buffer_t × Bool :=
  ({ rb with meta := { rb.meta with tail := 0, head := 0 } }, true)

/-- Calls `rb_add` on the elements of `vs` in order; returns the final ring buffer and the
return values in call order. -/
def rb_add_all (rb : ring_buffer_t) : List Elem → ring_buffer_t × List Bool
  | [] => (rb, [])
  | v :: vs =>
    let r := rb_add rb v
    let rest := rb_add_all r.1 vs
    (rest.1, r.2 :: rest.2)

/-- Calls `rb_get` `n` times in a row, each time on an output location holding `out`; returns
the final ring buffer and, per call, the value returned and the content of the output location
after it. -/
def rb_get_n (rb : ring_buffer_t) (out : Elem) : Nat → ring_buffer_t × List (Option Bool × Elem)
  | 0 => (rb, [])
  | n + 1 =>
    let r := rb_get rb out
    let rest := rb_get_n r.1 out n
    (rest.1, (r.2.2, r.2.1) :: rest.2)

/-- One call of the public ring buffer interface, as it occurs in a history of calls. -/
inductive rb_op where
  | add (data : Elem)
  | get (out : Elem)
  | peek (out : Elem)
  | clear
deriving DecidableEq, Repr

/-- A ring buffer together with the record of its history since creation or the last
`rb_clear`: the elements accepted by the successful `rb_add` calls and the elements written by
the successful `rb_get` calls, both in call order. -/
structure rb_history where
  rb : ring_buffer_t
  accepted : List Elem
  delivered : List Elem
deriving DecidableEq, Repr

/-- One call on a ring buffer with its record. An `rb_add` is successful when it returns true;
an `rb_get` is successful when it is not refused with false, that is when it copies the slot at
`tail` out and advances `tail`. -/
def rb_history_step (h : rb_history) : rb_op → rb_history
  | .add data =>
    let r := rb_add h.rb data
    if r.2 = true then { rb := r.1, accepted := h.accepted ++ [data], delivered := h.delivered }
    else { h with rb := r.1 }
  | .get out =>
    let r := rb_get h.rb out
    if r.2.2 = some false then { h with rb := r.1 }
    else { rb := r.1, accepted := h.accepted, delivered := h.delivered ++ [r.2.1] }
  | .peek _ => h
  | .clear => { rb := (rb_clear h.rb).1, accepted := [], delivered := [] }

/-- The ring buffer and its record after a history of calls on a freshly created ring
buffer. -/
def rb_history_run (rb : ring_buffer_t) (ops : List rb_op) : rb_history :=
  ops.foldl rb_history_step { rb := rb, accepted := [], delivered := [] }

/-- The number of elements a ring buffer holds according to its record: successful adds minus
successful gets since creation or the last clear. -/
def rb_held (h : rb_history) : Nat :=
  h.accepted.length - h.delivered.length

/-- The history of `n` rounds, each an `rb_add` of `v` followed by an `rb_get` into an output
location holding `out`. -/
def rb_add_get_ops (v out : Elem) : Nat → List rb_op
  | 0 => []
  | n + 1 => rb_add_get_ops v out n ++ [.add v, .get out]

/-- The ring buffer after one call of the public interface. -/
def rb_step (rb : ring_buffer_t) : rb_op → ring_buffer_t
  | .add data => (rb_add rb data).1
  | .get out => (rb_get rb out).1
  | .peek _ => rb
  | .clear => (rb_clear rb).1

/-- The distance from `tail` to `head` counted modulo `max_size`, the formula
`(head - tail + max_size) mod max_size` of the spec (not used by the source). -/
def rb_modular_distance (rb : ring_buffer_t) : Nat :=
  (rb.meta.head + rb.meta.max_size - rb.meta.tail) % rb.meta.max_size

/-! ## Resources held after a constructor call -/

/-- The resources held after a list of events, when `held` are held before it: an `acquire`
adds its resource, a `release` removes it. -/
def live_resources_from (held : List resource_t) : List mem_event → List resource_t
  | [] => held
  | .acquire r :: rest => live_resources_from (held ++ [r]) rest
  | .release r :: rest => live_resources_from (held.erase r) rest

/-- The resources that a constructor call has acquired and not released again when it
returns, in order of acquisition. -/
def live_resources (events : List mem_event) : List resource_t :=
  live_resources_from [] events

/-! ## Calls with pointer arguments -/

/-- What a call of a public operation does when its arguments are pointers that may be null:
either a `UC_ASSERT` fires, in which case control leaves the function at once and nothing is
returned or modified, or the call returns `value`. -/
inductive call_result (α : Type) where
  | assert_failed
  | returned (value : α)
deriving DecidableEq, Repr

/-- Modelled from the spec: the macro `UC_ASSERT` of `common/uc_assert.h`, which is not part of
the sources at hand, applied to a pointer. Per sections 6 and 7 it is a fail-fast assertion: if
the pointer is null the calling context is halted, otherwise the call goes on with what the
pointer refers to. Assertions are taken to be compiled in. -/
def UC_ASSERT {α β : Type} (p : Option α) (k : α → call_result β) : call_result β :=
  match p with
  | none => .assert_failed
  | some x => k x

/-- The call `queue_delete(queue)`: the argument is the address of the handle variable. On
success the container, the meta block and the handle are released and the handle variable is
set to `NULL`. -/
def queue_delete_call (queue : Option (Option queue_t)) :
    call_result (Option queue_t × List mem_event) :=
  UC_ASSERT queue fun h => UC_ASSERT h fun _ =>
    .returned (none, [.release .storage, .release .meta_block, .release .handle_block])

/-- The call `queue_empty(queue)`. -/
def queue_empty_call (queue : Option queue_t) : call_result Bool :=
  UC_ASSERT queue fun q => .returned (queue_empty q)

/-- The call `queue_full(queue)`. -/
def queue_full_call (queue : Option queue_t) : call_result Bool :=
  UC_ASSERT queue fun q => .returned (queue_full q)

/-- The call `queue_add(queue, data)`. -/
def queue_add_call (queue : Option queue_t) (data : Option Elem) (alloc_ok : Bool) :
    call_result (queue_t × Bool) :=
  UC_ASSERT queue fun q => UC_ASSERT data fun d => .returned (queue_add q d alloc_ok)

/-- The call `queue_get(queue, data)`; `data` is `none` for a null output pointer. -/
def queue_get_call (queue : Option queue_t) (data : Option Elem) :
    call_result (queue_t × Elem × Bool) :=
  UC_ASSERT queue fun q => UC_ASSERT data fun d => .returned (queue_get q d)

/-- The call `queue_peek(queue, data)`. -/
def queue_peek_call (queue : Option queue_t) (data : Option Elem) :
    call_result (Elem × Bool) :=
  UC_ASSERT queue fun q => UC_ASSERT data fun d => .returned (queue_peek q d)

/-- The call `queue_size(queue)`. -/
def queue_size_call (queue : Option queue_t) : call_result Nat :=
  UC_ASSERT queue fun q => .returned (queue_size q)

/-- The call `queue_clear(queue)`. -/
def queue_clear_call (queue : Option queue_t) : call_result (queue_t × Bool) :=
  UC_ASSERT queue fun q => .returned (queue_clear q)

/-- The call `stack_delete(stack)`, with the same reading as `queue_delete_call`. -/
def stack_delete_call (stack : Option (Option stack_t)) :
    call_result (Option stack_t × List mem_event) :=
  UC_ASSERT stack fun h => UC_ASSERT h fun _ =>
    .returned (none, [.release .storage, .release .meta_block, .release .handle_block])

/-- The call `stack_push(stack, data)`. -/
def stack_push_call (stack : Option stack_t) (data : Option Elem) (alloc_ok : Bool) :
    call_result (stack_t × Bool) :=
  UC_ASSERT stack fun s => UC_ASSERT data fun d => .returned (stack_push s d alloc_ok)

/-- The call `stack_pop(stack, data)`. -/
def stack_pop_call (stack : Option stack_t) (data : Option Elem) :
    call_result (stack_t × Elem × Bool) :=
  UC_ASSERT stack fun s => UC_ASSERT data fun d => .returned (stack_pop s d)

/-- The call `stack_peek(stack, data)`. -/
def stack_peek_call (stack : Option stack_t) (data : Option Elem) :
    call_result (Elem × Bool) :=
  UC_ASSERT stack fun s => UC_ASSERT data fun d => .returned (stack_peek s d)

/-- The call `stack_size(stack)`. -/
def stack_size_call (stack : Option stack_t) : call_result Nat :=
  UC_ASSERT stack fun s => .returned (stack_size s)

/-- The call `stack_empty(stack)`. -/
def stack_empty_call (stack : Option stack_t) : call_result Bool :=
  UC_ASSERT stack fun s => .returned (stack_empty s)

/-- The call `stack_full(stack)`. -/
def stack_full_call (stack : Option stack_t) : call_result Bool :=
  UC_ASSERT stack fun s => .returned (stack_full s)

/-- The call `stack_clear(stack)`. -/
def stack_clear_call (stack : Option stack_t) : call_result (stack_t × Bool) :=
  UC_ASSERT stack fun s => .returned (stack_clear s)

/-- The call `rb_delete(rb)`. After the assertions the source hands `(*rb)->container` itself,
cast to `container_t **`, to `container_delete`, where `queue_delete` and `stack_delete` hand
over the address of the field; what that call does is not represented, so no release of the
storage is recorded. The meta block and the handle are released and the handle variable is set
to `NULL`. -/
def rb_delete_call (rb : Option (Option ring_buffer_t)) :
    call_result (Option ring_buffer_t × List mem_event) :=
  UC_ASSERT rb fun h => UC_ASSERT h fun _ =>
    .returned (none, [.release .meta_block, .release .handle_block])

/-- The call `rb_add(rb, data)`. -/
def rb_add_call (rb : Option ring_buffer_t) (data : Option Elem) :
    call_result (ring_buffer_t × Bool) :=
  UC_ASSERT rb fun r => UC_ASSERT data fun d => .returned (rb_add r d)

/-- The call `rb_get(rb, data)`. -/
def rb_get_call (rb : Option ring_buffer_t) (data : Option Elem) :
    call_result (ring_buffer_t × Elem × Option Bool) :=
  UC_ASSERT rb fun r => UC_ASSERT data fun d => .returned (rb_get r d)

/-- The call `rb_peek(rb, data)`. -/
def rb_peek_call (rb : Option ring_buffer_t) (data : Option Elem) :
    call_result (Elem × Bool) :=
  UC_ASSERT rb fun r => UC_ASSERT data fun d => .returned (rb_peek r d)

/-- The call `rb_size(rb)`. -/
def rb_size_call (rb : Option ring_buffer_t) : call_result Nat :=
  UC_ASSERT rb fun r => .returned (rb_size r)

/-- The call `rb_is_empty(rb)`. -/
def rb_is_empty_call (rb : Option ring_buffer_t) : call_result Bool :=
  UC_ASSERT rb fun r => .returned (rb_is_empty r)

/-- The call `rb_is_full(rb)`. -/
def rb_is_full_call (rb : Option ring_buffer_t) : call_result Bool :=
  UC_ASSERT rb fun r => .returned (rb_is_full r)

/-- The call `rb_clear(rb)`. -/
def rb_clear_call (rb : Option ring_buffer_t) : call_result (ring_buffer_t × Bool) :=
  UC_ASSERT rb fun r => .returned (rb_clear r)

/-! ## Concrete inputs -/

/-- An empty bounded queue of capacity 3 holding 4-byte elements. -/
def sample_queue : queue_t :=
  { container := { strategy := .CONTAINER_LINKED_LIST_BASED, esize := 4, elems := [] },
    meta := { capacity := 3 } }

/-- An empty bounded stack of capacity 3 holding 4-byte elements. -/
def sample_stack : stack_t :=
  { container := { strategy := .CONTAINER_VECTOR_BASED, esize := 4, elems := [] },
    meta := { capacity := 3 } }

/-- An empty unbounded queue holding 4-byte elements. -/
def sample_queue_unbounded : queue_t :=
  { container := { strategy := .CONTAINER_LINKED_LIST_BASED, esize := 4, elems := [] },
    meta := { capacity := 0 } }

/-- An empty unbounded stack holding 4-byte elements. -/
def sample_stack_unbounded : stack_t :=
  { container := { strategy := .CONTAINER_VECTOR_BASED, esize := 4, elems := [] },
    meta := { capacity := 0 } }

/-- Three 4-byte elements. -/
def sample_elems : List Elem := [[1, 0, 0, 0], [2, 0, 0, 0], [3, 0, 0, 0]]

/-- The allocator outcome in which every allocation step succeeds. -/
def alloc_always : Nat → Bool := fun _ => true

/-- A bounded queue of capacity 3 holding the three sample elements. -/
def sample_queue_filled : queue_t :=
  { container := { strategy := .CONTAINER_LINKED_LIST_BASED, esize := 4, elems := sample_elems },
    meta := { capacity := 3 } }

/-- A bounded stack of capacity 3 holding the three sample elements. -/
def sample_stack_filled : stack_t :=
  { container := { strategy := .CONTAINER_VECTOR_BASED, esize := 4, elems := sample_elems },
    meta := { capacity := 3 } }

/-- A ring buffer of four 1-byte slots holding two elements after its cursors have moved:
`tail = 1`, `head = 3`. -/
def sample_rb : ring_buffer_t :=
  { container := { strategy := .CONTAINER_VECTOR_BASED, esize := 1,
                   elems := [[5], [6], [7], [0]] },
    meta := { tail := 1, head := 3, max_size := 4 } }

/-- A ring buffer of four 1-byte slots whose cursors are equal: `tail = head = 2`. -/
def sample_rb_drained : ring_buffer_t :=
  { container := { strategy := .CONTAINER_VECTOR_BASED, esize := 1,
                   elems := [[5], [6], [0], [0]] },
    meta := { tail := 2, head := 2, max_size := 4 } }

/-- The allocator outcome in which the allocation step number `k` fails and every other step
succeeds. -/
def alloc_fails_at (k : Nat) : Nat → Bool := fun i => decide (i ≠ k)

/-! ## Theorems: queue and stack -/

theorem queue_add_ok (q : queue_t) (v : Elem)
    (h : q.meta.capacity = 0 ∨ q.container.elems.length < q.meta.capacity) :
    queue_add q v true
      = ({ q with container := { q.container with elems := q.container.elems ++ [v] } }, true) := by
  have hfull : queue_full q = false := by
    unfold queue_full container_size
    rcases h with h | h
    · simp [h]
    · simp only [ne_eq, ite_not, Bool.if_false_left, Bool.and_eq_false_imp,
        Bool.not_eq_eq_eq_not, Bool.not_true, decide_eq_false_iff_not, decide_eq_true_eq]
      omega
  simp [queue_add, hfull, container_push_back]

theorem queue_add_all_ok (vs : List Elem) : ∀ q : queue_t,
    (q.meta.capacity = 0 ∨ q.container.elems.length + vs.length ≤ q.meta.capacity) →
    queue_add_all q vs
      = ({ q with container := { q.container with elems := q.container.elems ++ vs } },
          List.replicate vs.length true) := by
  induction vs with
  | nil => intro q _; simp [queue_add_all]
  | cons v vs ih =>
    intro q h
    have h1 : q.meta.capacity = 0 ∨ q.container.elems.length < q.meta.capacity := by
      rcases h with h | h
      · exact Or.inl h
      · right; simp only [List.length_cons] at h; omega
    have h2 := ih ({ q with container := { q.container with elems := q.container.elems ++ [v] } })
      (by
        rcases h with h | h
        · exact Or.inl h
        · right; simp only [List.length_cons, List.length_append, List.length_nil] at h ⊢
          omega)
    simp only [queue_add_all, queue_add_ok q v h1, h2]
    simp [List.replicate_succ]

theorem queue_get_n_ok (out : Elem) (xs : List Elem) : ∀ (q : queue_t) (rest : List Elem),
    q.container.elems = xs ++ rest →
    queue_get_n q out xs.length
      = ({ q with container := { q.container with elems := rest } },
          xs.map (fun v => (true, v))) := by
  induction xs with
  | nil =>
    intro q rest h
    simp only [List.nil_append] at h
    simp [queue_get_n, ← h]
  | cons x xs ih =>
    intro q rest h
    have h2 := ih ({ q with container := { q.container with elems := xs ++ rest } }) rest rfl
    simp only [List.length_cons, queue_get_n, queue_get, container_pop_front, h,
      List.cons_append, h2, List.map_cons]

/-- C1. Queue FIFO order: on an empty queue of capacity N (N = 0 meaning unbounded), adding
the elements `vs` in order with no `push_back` failure, where `vs.length ≤ N` when the queue is
bounded, makes every `queue_add` return true; `vs.length` consecutive `queue_get` calls then
each return true and write the elements of `vs` in the order they were added, and the queue is
empty afterwards. -/
theorem C1_queue_fifo (q : queue_t) (vs : List Elem) (out : Elem)
    (hempty : queue_empty q = true)
    (hcap : q.meta.capacity = 0 ∨ vs.length ≤ q.meta.capacity) :
    (queue_add_all q vs).2 = List.replicate vs.length true ∧
    (queue_get_n (queue_add_all q vs).1 out vs.length).2 = vs.map (fun v => (true, v)) ∧
    queue_empty (queue_get_n (queue_add_all q vs).1 out vs.length).1 = true := by
  have he : q.container.elems = [] := by
    simpa [queue_empty, container_size] using hempty
  have hadd := queue_add_all_ok vs q (by simpa [he] using hcap)
  have hget := queue_get_n_ok out vs (queue_add_all q vs).1 [] (by simp [hadd, he])
  refine ⟨by rw [hadd], by rw [hget], ?_⟩
  rw [hget]
  simp [queue_empty, container_size]

theorem C1_queue_fifo_witness :
    queue_empty sample_queue = true ∧
    (sample_queue.meta.capacity = 0 ∨ sample_elems.length ≤ sample_queue.meta.capacity) ∧
    ((queue_add_all sample_queue sample_elems).2 = List.replicate sample_elems.length true ∧
     (queue_get_n (queue_add_all sample_queue sample_elems).1 [0, 0, 0, 0] sample_elems.length).2
       = sample_elems.map (fun v => (true, v)) ∧
     queue_empty
       (queue_get_n (queue_add_all sample_queue sample_elems).1 [0, 0, 0, 0]
         sample_elems.length).1 = true) :=
  ⟨by decide, by decide,
    C1_queue_fifo sample_queue sample_elems [0, 0, 0, 0] (by decide) (by decide)⟩

theorem stack_push_ok (s : stack_t) (v : Elem)
    (h : s.meta.capacity = 0 ∨ s.container.elems.length < s.meta.capacity) :
    stack_push s v true
      = ({ s with container := { s.container with elems := s.container.elems ++ [v] } }, true) := by
  have hfull : stack_full s = false := by
    unfold stack_full container_size
    rcases h with h | h
    · simp [h]
    · simp only [ne_eq, ite_not, Bool.if_false_left, Bool.and_eq_false_imp,
        Bool.not_eq_eq_eq_not, Bool.not_true, decide_eq_false_iff_not, decide_eq_true_eq]
      omega
  simp [stack_push, hfull, container_push_back]

theorem stack_push_all_ok (vs : List Elem) : ∀ s : stack_t,
    (s.meta.capacity = 0 ∨ s.container.elems.length + vs.length ≤ s.meta.capacity) →
    stack_push_all s vs
      = ({ s with container := { s.container with elems := s.container.elems ++ vs } },
          List.replicate vs.length true) := by
  induction vs with
  | nil => intro s _; simp [stack_push_all]
  | cons v vs ih =>
    intro s h
    have h1 : s.meta.capacity = 0 ∨ s.container.elems.length < s.meta.capacity := by
      rcases h with h | h
      · exact Or.inl h
      · right; simp only [List.length_cons] at h; omega
    have h2 := ih ({ s with container := { s.container with elems := s.container.elems ++ [v] } })
      (by
        rcases h with h | h
        · exact Or.inl h
        · right; simp only [List.length_cons, List.length_append, List.length_nil] at h ⊢
          omega)
    simp only [stack_push_all, stack_push_ok s v h1, h2]
    simp [List.replicate_succ]

theorem stack_pop_n_ok (out : Elem) (ys : List Elem) : ∀ (s : stack_t) (rest : List Elem),
    s.container.elems = rest ++ ys.reverse →
    stack_pop_n s out ys.length
      = ({ s with container := { s.container with elems := rest } },
          ys.map (fun v => (true, v))) := by
  induction ys with
  | nil =>
    intro s rest h
    simp only [List.reverse_nil, List.append_nil] at h
    simp [stack_pop_n, ← h]
  | cons y ys ih =>
    intro s rest h
    have hl : s.container.elems = (rest ++ ys.reverse) ++ [y] := by
      simp [h, List.reverse_cons]
    have h2 := ih ({ s with container := { s.container with elems := rest ++ ys.reverse } })
      rest rfl
    have hg : (rest ++ ys.reverse ++ [y]).getLast? = some y := by simp
    simp only [List.length_cons, stack_pop_n, stack_pop, container_pop_back, hl, hg,
      List.dropLast_concat, h2, List.map_cons]

/-- C2. Stack LIFO order: on an empty stack of capacity N (N = 0 meaning unbounded), pushing
the elements `vs` in order with no `push_back` failure, where `vs.length ≤ N` when the stack is
bounded, makes every `stack_push` return true; `vs.length` consecutive `stack_pop` calls then
each return true and write the elements of `vs` in exactly the reverse order, and the stack is
empty afterwards. -/
theorem C2_stack_lifo (s : stack_t) (vs : List Elem) (out : Elem)
    (hempty : stack_empty s = true)
    (hcap : s.meta.capacity = 0 ∨ vs.length ≤ s.meta.capacity) :
    (stack_push_all s vs).2 = List.replicate vs.length true ∧
    (stack_pop_n (stack_push_all s vs).1 out vs.length).2
      = vs.reverse.map (fun v => (true, v)) ∧
    stack_empty (stack_pop_n (stack_push_all s vs).1 out vs.length).1 = true := by
  have he : s.container.elems = [] := by
    simpa [stack_empty, container_size] using hempty
  have hpush := stack_push_all_ok vs s (by simpa [he] using hcap)
  have hpop := stack_pop_n_ok out vs.reverse (stack_push_all s vs).1 []
    (by simp [hpush, he])
  rw [List.length_reverse] at hpop
  refine ⟨by rw [hpush], by rw [hpop], ?_⟩
  rw [hpop]
  simp [stack_empty, container_size]

theorem C2_stack_lifo_witness :
    stack_empty sample_stack = true ∧
    (sample_stack.meta.capacity = 0 ∨ sample_elems.length ≤ sample_stack.meta.capacity) ∧
    ((stack_push_all sample_stack sample_elems).2 = List.replicate sample_elems.length true ∧
     (stack_pop_n (stack_push_all sample_stack sample_elems).1 [0, 0, 0, 0] sample_elems.length).2
       = sample_elems.reverse.map (fun v => (true, v)) ∧
     stack_empty
       (stack_pop_n (stack_push_all sample_stack sample_elems).1 [0, 0, 0, 0]
         sample_elems.length).1 = true) :=
  ⟨by decide, by decide,
    C2_stack_lifo sample_stack sample_elems [0, 0, 0, 0] (by decide) (by decide)⟩

theorem queue_create_some (N e : Nat) (valid : Bool) (ok : Nat → Bool) (q : queue_t)
    (ev : List mem_event) (h : queue_create N e valid ok = .returned (some q) ev) :
    q.container.elems = [] ∧ q.meta.capacity = N ∧ q.container.esize = e ∧ e ≠ 0 := by
  unfold queue_create container_create at h
  split_ifs at h <;> simp at h
  obtain ⟨h1, -⟩ := h
  subst h1
  simp_all

theorem stack_create_some (N e : Nat) (valid : Bool) (ok : Nat → Bool) (s : stack_t)
    (ev : List mem_event) (h : stack_create N e valid ok = .returned (some s) ev) :
    s.container.elems = [] ∧ s.meta.capacity = N ∧ s.container.esize = e ∧ e ≠ 0 := by
  unfold stack_create container_create at h
  split_ifs at h <;> simp at h
  obtain ⟨h1, -⟩ := h
  subst h1
  simp_all

theorem queue_add_full (q : queue_t) (v : Elem) (b : Bool) (h : queue_full q = true) :
    queue_add q v b = (q, false) := by
  simp [queue_add, h]

theorem stack_push_full (s : stack_t) (v : Elem) (b : Bool) (h : stack_full s = true) :
    stack_push s v b = (s, false) := by
  simp [stack_push, h]

theorem stack_push_all_full (vs : List Elem) (s : stack_t) (h : stack_full s = true) :
    stack_push_all s vs = (s, List.replicate vs.length false) := by
  induction vs with
  | nil => simp [stack_push_all]
  | cons v vs ih => simp [stack_push_all, stack_push_full s v true h, ih, List.replicate_succ]

theorem stack_push_all_append (xs ys : List Elem) : ∀ s : stack_t,
    stack_push_all s (xs ++ ys)
      = ((stack_push_all (stack_push_all s xs).1 ys).1,
          (stack_push_all s xs).2 ++ (stack_push_all (stack_push_all s xs).1 ys).2) := by
  induction xs with
  | nil => intro s; simp [stack_push_all]
  | cons x xs ih => intro s; simp [stack_push_all, ih]

/-- C3. Bounded queue capacity is exact: on the queue returned by a successful
`queue_create N e` with `N ≥ 1`, `N` calls of `queue_add` without `push_back` failure all
return true, `queue_full` is true after them, and one more `queue_add` returns false whatever
the allocator would have answered. -/
theorem C3_queue_capacity_exact (N e : Nat) (valid : Bool) (ok : Nat → Bool) (q : queue_t)
    (ev : List mem_event) (vs : List Elem) (v : Elem) (b : Bool)
    (hN : 1 ≤ N)
    (hcreate : queue_create N e valid ok = .returned (some q) ev)
    (hlen : vs.length = N) :
    (queue_add_all q vs).2 = List.replicate N true ∧
    queue_full (queue_add_all q vs).1 = true ∧
    (queue_add (queue_add_all q vs).1 v b).2 = false := by
  obtain ⟨he, hc, -, -⟩ := queue_create_some N e valid ok q ev hcreate
  have hadd := queue_add_all_ok vs q (by right; simp [he, hc, hlen])
  have hfull : queue_full (queue_add_all q vs).1 = true := by
    rw [hadd]
    simp only [queue_full, container_size, he, List.nil_append, hc, hlen, ne_eq]
    rw [if_pos (by omega)]
    simp
  refine ⟨by rw [hadd, hlen], hfull, ?_⟩
  rw [queue_add_full _ v b hfull]

theorem C3_queue_capacity_exact_witness :
    1 ≤ 3 ∧
    queue_create 3 4 true alloc_always
      = .returned (some sample_queue)
          [.acquire .handle_block, .acquire .storage, .acquire .meta_block] ∧
    sample_elems.length = 3 ∧
    ((queue_add_all sample_queue sample_elems).2 = List.replicate 3 true ∧
     queue_full (queue_add_all sample_queue sample_elems).1 = true ∧
     (queue_add (queue_add_all sample_queue sample_elems).1 [9, 0, 0, 0] true).2 = false) :=
  ⟨by decide, by decide, by decide,
    C3_queue_capacity_exact 3 4 true alloc_always sample_queue _ sample_elems [9, 0, 0, 0] true
      (by decide) rfl (by decide)⟩

/-- C4. Bounded stack capacity is exact and saturating: on the stack returned by a successful
`stack_create N e` with `N ≥ 1`, of `m ≥ N` consecutive `stack_push` attempts without
`push_back` failure exactly the first `N` return true and all later ones return false;
afterwards `stack_size` is `N` and `stack_full` is true. -/
theorem C4_stack_capacity_saturates (N e : Nat) (valid : Bool) (ok : Nat → Bool)
    (s : stack_t) (ev : List mem_event) (vs : List Elem)
    (hN : 1 ≤ N)
    (hcreate : stack_create N e valid ok = .returned (some s) ev)
    (hlen : N ≤ vs.length) :
    (stack_push_all s vs).2
      = List.replicate N true ++ List.replicate (vs.length - N) false ∧
    stack_size (stack_push_all s vs).1 = N ∧
    stack_full (stack_push_all s vs).1 = true := by
  obtain ⟨he, hc, -, -⟩ := stack_create_some N e valid ok s ev hcreate
  have hsplit : vs = vs.take N ++ vs.drop N := (List.take_append_drop N vs).symm
  have htake : (vs.take N).length = N := by simp [hlen]
  have hdrop : (vs.drop N).length = vs.length - N := by simp
  have hpush := stack_push_all_ok (vs.take N) s (by right; simp [he, hc, hlen])
  have hfull : stack_full (stack_push_all s (vs.take N)).1 = true := by
    rw [hpush]
    simp only [stack_full, container_size, he, List.nil_append, hc, htake, ne_eq]
    rw [if_pos (by omega)]
    simp
  have hrest := stack_push_all_full (vs.drop N) _ hfull
  have hall : stack_push_all s vs
      = ((stack_push_all s (vs.take N)).1,
          List.replicate N true ++ List.replicate (vs.length - N) false) := by
    conv_lhs => rw [hsplit]
    rw [stack_push_all_append, hrest, hdrop]
    simp only [hpush, htake]
  rw [hall]
  refine ⟨rfl, ?_, hfull⟩
  simp only [hpush, stack_size, container_size, he, List.nil_append, htake]

theorem C4_stack_capacity_saturates_witness :
    1 ≤ 2 ∧
    stack_create 2 4 true alloc_always
      = .returned (some { sample_stack with meta := { capacity := 2 } })
          [.acquire .handle_block, .acquire .storage, .acquire .meta_block] ∧
    2 ≤ sample_elems.length ∧
    ((stack_push_all { sample_stack with meta := { capacity := 2 } } sample_elems).2
       = List.replicate 2 true ++ List.replicate (sample_elems.length - 2) false ∧
     stack_size (stack_push_all { sample_stack with meta := { capacity := 2 } } sample_elems).1
       = 2 ∧
     stack_full (stack_push_all { sample_stack with meta := { capacity := 2 } } sample_elems).1
       = true) :=
  ⟨by decide, by decide, by decide,
    C4_stack_capacity_saturates 2 4 true alloc_always _ _ sample_elems
      (by decide) rfl (by decide)⟩

theorem queue_step_meta (q : queue_t) (op : queue_op) : (queue_step q op).meta = q.meta := by
  cases op <;> simp only [queue_step, queue_add, queue_get, queue_clear]
  split <;> rfl

theorem queue_run_meta_eq (ops : List queue_op) : ∀ q : queue_t, (queue_run q ops).meta = q.meta := by
  induction ops with
  | nil => intro q; rfl
  | cons op ops ih =>
    intro q
    have h := ih (queue_step q op)
    simp only [queue_run, List.foldl_cons] at h ⊢
    rw [h, queue_step_meta]

theorem stack_step_meta (s : stack_t) (op : stack_op) : (stack_step s op).meta = s.meta := by
  cases op <;> simp only [stack_step, stack_push, stack_pop, stack_clear]
  split <;> rfl

theorem stack_run_meta_eq (ops : List stack_op) : ∀ s : stack_t, (stack_run s ops).meta = s.meta := by
  induction ops with
  | nil => intro s; rfl
  | cons op ops ih =>
    intro s
    have h := ih (stack_step s op)
    simp only [stack_run, List.foldl_cons] at h ⊢
    rw [h, stack_step_meta]

/-- C5. Unbounded containers never refuse: for the queue returned by a successful
`queue_create 0 eq` and the stack returned by a successful `stack_create 0 es`, in every state
reached by any history of calls `queue_full` (`stack_full`) is false and `queue_add`
(`stack_push`) returns true for every element when `push_back` succeeds; and after the
`vs.length` adds (pushes) of any list `vs` from the created state every call has returned true
and the size is `vs.length`. -/
theorem C5_unbounded_never_refuse (eq es : Nat) (validq valids : Bool) (okq oks : Nat → Bool)
    (q : queue_t) (s : stack_t) (evq evs : List mem_event)
    (hq : queue_create 0 eq validq okq = .returned (some q) evq)
    (hs : stack_create 0 es valids oks = .returned (some s) evs) :
    (∀ ops : List queue_op, queue_full (queue_run q ops) = false ∧
      ∀ v : Elem, (queue_add (queue_run q ops) v true).2 = true) ∧
    (∀ vs : List Elem, (queue_add_all q vs).2 = List.replicate vs.length true ∧
      queue_size (queue_add_all q vs).1 = vs.length) ∧
    (∀ ops : List stack_op, stack_full (stack_run s ops) = false ∧
      ∀ v : Elem, (stack_push (stack_run s ops) v true).2 = true) ∧
    (∀ vs : List Elem, (stack_push_all s vs).2 = List.replicate vs.length true ∧
      stack_size (stack_push_all s vs).1 = vs.length) := by
  obtain ⟨heq, hcq, -, -⟩ := queue_create_some 0 eq validq okq q evq hq
  obtain ⟨hes, hcs, -, -⟩ := stack_create_some 0 es valids oks s evs hs
  refine ⟨?_, ?_, ?_, ?_⟩
  · intro ops
    have hc : (queue_run q ops).meta.capacity = 0 := by rw [queue_run_meta_eq, hcq]
    refine ⟨by simp [queue_full, hc], ?_⟩
    intro v
    rw [queue_add_ok _ v (Or.inl hc)]
  · intro vs
    have h := queue_add_all_ok vs q (Or.inl hcq)
    rw [h]
    simp [queue_size, container_size, heq]
  · intro ops
    have hc : (stack_run s ops).meta.capacity = 0 := by rw [stack_run_meta_eq, hcs]
    refine ⟨by simp [stack_full, hc], ?_⟩
    intro v
    rw [stack_push_ok _ v (Or.inl hc)]
  · intro vs
    have h := stack_push_all_ok vs s (Or.inl hcs)
    rw [h]
    simp [stack_size, container_size, hes]

theorem C5_unbounded_never_refuse_witness :
    queue_create 0 4 true alloc_always
      = .returned (some sample_queue_unbounded)
          [.acquire .handle_block, .acquire .storage, .acquire .meta_block] ∧
    stack_create 0 4 true alloc_always
      = .returned (some sample_stack_unbounded)
          [.acquire .handle_block, .acquire .storage, .acquire .meta_block] ∧
    ((∀ ops : List queue_op, queue_full (queue_run sample_queue_unbounded ops) = false ∧
       ∀ v : Elem, (queue_add (queue_run sample_queue_unbounded ops) v true).2 = true) ∧
     (∀ vs : List Elem,
       (queue_add_all sample_queue_unbounded vs).2 = List.replicate vs.length true ∧
       queue_size (queue_add_all sample_queue_unbounded vs).1 = vs.length) ∧
     (∀ ops : List stack_op, stack_full (stack_run sample_stack_unbounded ops) = false ∧
       ∀ v : Elem, (stack_push (stack_run sample_stack_unbounded ops) v true).2 = true) ∧
     (∀ vs : List Elem,
       (stack_push_all sample_stack_unbounded vs).2 = List.replicate vs.length true ∧
       stack_size (stack_push_all sample_stack_unbounded vs).1 = vs.length)) :=
  ⟨by decide, by decide,
    C5_unbounded_never_refuse 4 4 true true alloc_always alloc_always _ _ _ _ rfl rfl⟩

/-! ## Theorems: ring buffer -/

theorem abs_diff_near (t h : Nat) (ht : t < 2 ^ 64) (hh : h < 2 ^ 64)
    (h1 : t < h + 2 ^ 31) (h2 : h < t + 2 ^ 31) :
    c_abs (size_t_to_int (size_t_sub t h)) = if h ≤ t then (t : Int) - h else (h : Int) - t := by
  unfold c_abs size_t_to_int size_t_sub SIZE_T_MOD
  simp only [Int.ofNat_eq_coe]
  split_ifs <;> omega

theorem abs_diff_int_min (h : Nat) (hh : h = 2 ^ 31) :
    c_abs (size_t_to_int (size_t_sub 0 h)) = -((2 ^ 31 : Nat) : Int) := by
  subst hh
  unfold c_abs size_t_to_int size_t_sub SIZE_T_MOD
  simp only [Int.ofNat_eq_coe]
  split_ifs <;> omega

theorem rb_prefill_some (data : Elem) (ok : Nat → Bool) (n : Nat) :
    ∀ (c c1 : container_t) (i : Nat), rb_prefill data ok c i n = some c1 →
      c1 = { c with elems := c.elems ++ List.replicate n data } := by
  induction n with
  | zero =>
    intro c c1 i h
    simp only [rb_prefill, Option.some.injEq] at h
    simp [← h]
  | succ n ih =>
    intro c c1 i h
    simp only [rb_prefill, container_push_back] at h
    cases hok : ok i with
    | false => simp [hok] at h
    | true =>
      simp only [hok, if_true, Bool.true_eq_false, if_false] at h
      rw [ih _ c1 (i + 1) h]
      simp [List.replicate_succ]

theorem rb_prefill_ok (data : Elem) (ok : Nat → Bool) (hok : ∀ j, ok j = true) (n : Nat) :
    ∀ (c : container_t) (i : Nat),
      rb_prefill data ok c i n = some { c with elems := c.elems ++ List.replicate n data } := by
  induction n with
  | zero => intro c i; simp [rb_prefill]
  | succ n ih =>
    intro c i
    simp only [rb_prefill, container_push_back, hok i, if_true, Bool.true_eq_false, if_false]
    rw [ih]
    simp [List.replicate_succ]

theorem rb_create_some (M e : Nat) (valid : Bool) (ok : Nat → Bool) (rb : ring_buffer_t)
    (ev : List mem_event) (h : rb_create M e valid ok = .returned (some rb) ev) :
    rb = rb_fresh M e ∧ M ≠ 0 ∧ e ≠ 0 := by
  unfold rb_create at h
  split_ifs at h with h1 h2 h3 h4 h5 h6
  all_goals try (exact absurd h (by simp))
  all_goals
    split at h
    · simp at h
    · rename_i c hc
      split at h
      · simp at h
      · rename_i c1 hc1
        first
        | simp only [create_result.returned.injEq, Option.some.injEq] at h
          have hp := rb_prefill_some _ _ _ _ _ _ hc1
          unfold container_create at hc
          split_ifs at hc
          simp only [Option.some.injEq] at hc
          subst hc
          subst hp
          refine ⟨?_, h2, h1⟩
          rw [← h.1]
          simp [rb_fresh]
        | simp at h

theorem rb_create_ok (M e : Nat) (ok : Nat → Bool) (hM : M ≠ 0) (he : e ≠ 0)
    (hok : ∀ j, ok j = true) :
    rb_create M e true ok = .returned (some (rb_fresh M e))
      [.acquire .handle_block, .acquire .scratch_block, .acquire .storage,
        .acquire .meta_block] := by
  unfold rb_create
  rw [if_neg he, if_neg hM]
  simp only [Bool.true_eq_false, if_false, hok, container_create, he, or_self, rb_prefill_ok _ ok hok]
  simp [rb_fresh]

theorem set_at_length (pre post : List Elem) (x v : Elem) :
    (pre ++ x :: post).set pre.length v = pre ++ v :: post := by
  induction pre with
  | nil => rfl
  | cons p pre ih => simp [ih]

theorem get_at_length (pre post : List Elem) (x : Elem) :
    (pre ++ x :: post).get? pre.length = some x := by
  induction pre with
  | nil => rfl
  | cons p pre ih => simpa using ih

theorem rb_is_full_tail_zero (rb : ring_buffer_t) (htail : rb.meta.tail = 0)
    (hh31 : rb.meta.head < 2 ^ 31) (hM1 : 1 ≤ rb.meta.max_size)
    (hM64 : rb.meta.max_size < 2 ^ 64) :
    rb_is_full rb = decide (rb.meta.max_size - 1 ≤ rb.meta.head) := by
  have hd := abs_diff_near rb.meta.tail rb.meta.head (by omega) (by omega) (by omega) (by omega)
  have hs : size_t_sub rb.meta.max_size 1 = rb.meta.max_size - 1 := by
    unfold size_t_sub SIZE_T_MOD; omega
  have hval : int_to_size_t (c_abs (size_t_to_int (size_t_sub rb.meta.tail rb.meta.head)))
      = rb.meta.head := by
    rw [hd, htail]
    unfold int_to_size_t
    simp only [Int.ofNat_eq_coe]
    split_ifs <;> omega
  unfold rb_is_full rb_abs_diff
  rw [hval, hs]

theorem rb_add_step (rb : ring_buffer_t) (v x : Elem) (pre post : List Elem)
    (hel : rb.container.elems = pre ++ x :: post)
    (hhead : rb.meta.head = pre.length) (htail : rb.meta.tail = 0)
    (hM64 : rb.meta.max_size < 2 ^ 64)
    (hh31 : pre.length < 2 ^ 31)
    (hroom : pre.length + 1 < rb.meta.max_size) :
    rb_add rb v
      = ({ container := { rb.container with elems := pre ++ v :: post },
           meta := { rb.meta with head := pre.length + 1 } }, true) := by
  have hfull : rb_is_full rb = false := by
    rw [rb_is_full_tail_zero rb htail (by omega) (by omega) hM64]
    simp only [decide_eq_false_iff_not]
    omega
  have hmod : (rb.meta.head + 1) % SIZE_T_MOD % rb.meta.max_size = pre.length + 1 := by
    have h64 : (pre.length + 1) % 2 ^ 64 = pre.length + 1 := by omega
    unfold SIZE_T_MOD
    rw [hhead, h64, Nat.mod_eq_of_lt hroom]
  have hlt : rb.meta.head < rb.container.elems.length := by
    rw [hel, hhead]; simp
  simp only [rb_add, hfull, Bool.false_eq_true, if_false, container_replace, hlt, if_true,
    hmod, Bool.true_eq_false]
  rw [hel, hhead, set_at_length]

theorem rb_add_all_tail_zero (vs : List Elem) :
    ∀ (rb : ring_buffer_t) (pre post : List Elem),
      rb.container.elems = pre ++ post → rb.meta.head = pre.length → rb.meta.tail = 0 →
      rb.meta.max_size < 2 ^ 64 → pre.length + vs.length ≤ 2 ^ 31 →
      pre.length + vs.length < rb.meta.max_size → vs.length ≤ post.length →
      rb_add_all rb vs
        = ({ container := { rb.container with elems := pre ++ vs ++ post.drop vs.length },
             meta := { rb.meta with head := pre.length + vs.length } },
            List.replicate vs.length true) := by
  induction vs with
  | nil =>
    intro rb pre post hel hhead _ _ _ _ _
    simp [rb_add_all, ← hel, ← hhead]
  | cons v vs ih =>
    intro rb pre post hel hhead htail hM64 h31 hroom hpost
    simp only [List.length_cons] at h31 hroom hpost
    cases post with
    | nil => simp at hpost
    | cons x post =>
      simp only [List.length_cons] at hpost
      have hstep := rb_add_step rb v x pre post hel hhead htail hM64 (by omega) (by omega)
      have h2 := ih
        { container := { rb.container with elems := pre ++ v :: post },
          meta := { rb.meta with head := pre.length + 1 } }
        (pre ++ [v]) post (by simp) (by simp) htail hM64
        (by simp only [List.length_append, List.length_cons, List.length_nil]; omega)
        (by simp only [List.length_append, List.length_cons, List.length_nil]; omega)
        (by omega)
      simp only [rb_add_all, hstep, h2]
      simp [List.replicate_succ, Nat.add_assoc, Nat.add_comm 1]

theorem rb_is_full_int_min (rb : ring_buffer_t) (htail : rb.meta.tail = 0)
    (hhead : rb.meta.head = 2 ^ 31) (hM1 : 1 ≤ rb.meta.max_size)
    (hM : rb.meta.max_size ≤ 2 ^ 64 - 2 ^ 31 + 1) : rb_is_full rb = true := by
  have hd := abs_diff_int_min rb.meta.head hhead
  have hs : size_t_sub rb.meta.max_size 1 = rb.meta.max_size - 1 := by
    unfold size_t_sub SIZE_T_MOD; omega
  have hval : int_to_size_t (c_abs (size_t_to_int (size_t_sub rb.meta.tail rb.meta.head)))
      = 2 ^ 64 - 2 ^ 31 := by
    rw [htail, hd]
    unfold int_to_size_t
    simp only [Int.ofNat_eq_coe]
    omega
  unfold rb_is_full rb_abs_diff
  rw [hval, hs]
  simp only [decide_eq_true_eq]
  omega

theorem rb_add_refused (rb : ring_buffer_t) (v : Elem) (h : rb_is_full rb = true) :
    rb_add rb v = (rb, false) := by
  simp [rb_add, h]

theorem rb_add_all_append (xs ys : List Elem) : ∀ rb : ring_buffer_t,
    rb_add_all rb (xs ++ ys)
      = ((rb_add_all (rb_add_all rb xs).1 ys).1,
          (rb_add_all rb xs).2 ++ (rb_add_all (rb_add_all rb xs).1 ys).2) := by
  induction xs with
  | nil => intro rb; simp [rb_add_all]
  | cons x xs ih => intro rb; simp [rb_add_all, ih]

theorem rb_fresh_adds (M e : Nat) (vs : List Elem) (hM64 : M < 2 ^ 64)
    (h31 : vs.length ≤ 2 ^ 31) (hroom : vs.length < M) :
    rb_add_all (rb_fresh M e) vs
      = ({ container := { strategy := .CONTAINER_VECTOR_BASED, esize := e,
                          elems := vs ++ List.replicate (M - vs.length) (List.replicate e 0) },
           meta := { tail := 0, head := vs.length, max_size := M } },
          List.replicate vs.length true) := by
  have h := rb_add_all_tail_zero vs (rb_fresh M e) [] (List.replicate M (List.replicate e 0))
    rfl rfl rfl hM64 (by simpa using h31) (by simpa using hroom)
    (by rw [List.length_replicate]; omega)
  rw [h]
  simp only [rb_fresh, List.nil_append, List.length_nil, Nat.zero_add, List.drop_replicate]

theorem rb_fresh_add_int_min (M e : Nat) (v : Elem) (vs : List Elem)
    (hlen : vs.length = 2 ^ 31) (hM : 2 ^ 31 + 2 ≤ M) (hM64 : M ≤ 2 ^ 64 - 2 ^ 31 + 1) :
    (rb_add_all (rb_fresh M e) vs).2 = List.replicate vs.length true ∧
    rb_is_full (rb_add_all (rb_fresh M e) vs).1 = true ∧
    (rb_add (rb_add_all (rb_fresh M e) vs).1 v).2 = false := by
  have h := rb_fresh_adds M e vs (by omega) (by omega) (by omega)
  have hfull : rb_is_full (rb_add_all (rb_fresh M e) vs).1 = true := by
    rw [h]
    exact rb_is_full_int_min _ rfl hlen (by show 1 ≤ M; omega) (by show M ≤ _; omega)
  refine ⟨by rw [h], hfull, ?_⟩
  rw [rb_add_refused _ v hfull]

theorem rb_is_empty_near (rb : ring_buffer_t) (ht : rb.meta.tail < 2 ^ 31)
    (hh : rb.meta.head < 2 ^ 31) :
    rb_is_empty rb = decide (rb.meta.head = rb.meta.tail) := by
  have hd := abs_diff_near rb.meta.tail rb.meta.head (by omega) (by omega) (by omega) (by omega)
  unfold rb_is_empty rb_abs_diff
  rw [hd]
  by_cases h : rb.meta.head = rb.meta.tail
  · simp [h]
  · rw [decide_eq_false h, decide_eq_false]
    split_ifs <;> omega

theorem rb_get_step (rb : ring_buffer_t) (out x : Elem) (pre post : List Elem)
    (hel : rb.container.elems = pre ++ x :: post)
    (htail : rb.meta.tail = pre.length)
    (hlt : pre.length < rb.meta.head) (hh31 : rb.meta.head < 2 ^ 31)
    (hroom : rb.meta.head < rb.meta.max_size) :
    rb_get rb out
      = ({ rb with meta := { rb.meta with tail := pre.length + 1 } }, x, none) := by
  have hempty : rb_is_empty rb = false := by
    rw [rb_is_empty_near rb (by omega) hh31]
    simp only [decide_eq_false_iff_not]
    omega
  have hmod : (rb.meta.tail + 1) % SIZE_T_MOD % rb.meta.max_size = pre.length + 1 := by
    have h64 : (pre.length + 1) % 2 ^ 64 = pre.length + 1 := by omega
    unfold SIZE_T_MOD
    rw [htail, h64, Nat.mod_eq_of_lt (by omega)]
  have hat : rb.container.elems.get? rb.meta.tail = some x := by
    rw [hel, htail, get_at_length]
  simp only [rb_get, hempty, Bool.false_eq_true, if_false, container_at, hat, hmod,
    Bool.true_eq_false]

theorem rb_get_n_ok (out : Elem) (xs : List Elem) :
    ∀ (rb : ring_buffer_t) (pre post : List Elem),
      rb.container.elems = pre ++ xs ++ post → rb.meta.tail = pre.length →
      rb.meta.head = pre.length + xs.length → rb.meta.head < 2 ^ 31 →
      rb.meta.head < rb.meta.max_size →
      rb_get_n rb out xs.length
        = ({ rb with meta := { rb.meta with tail := rb.meta.head } },
            xs.map (fun v => (none, v))) := by
  induction xs with
  | nil =>
    intro rb pre post _ htail hhead _ _
    have hq : rb.meta.head = rb.meta.tail := by
      simp only [List.length_nil] at hhead; omega
    rw [hq]
    rfl
  | cons x xs ih =>
    intro rb pre post hel htail hhead h31 hroom
    simp only [List.length_cons] at hhead
    have hstep := rb_get_step rb out x pre (xs ++ post) (by simp [hel]) htail (by omega) h31 hroom
    have h2 := ih { rb with meta := { rb.meta with tail := pre.length + 1 } } (pre ++ [x]) post
      (by simp [hel]) (by simp)
      (by simp only [List.length_append, List.length_cons, List.length_nil]; omega) h31 hroom
    simp only [List.length_cons, rb_get_n, hstep, h2, List.map_cons]

theorem rb_add_all_full (vs : List Elem) (rb : ring_buffer_t) (h : rb_is_full rb = true) :
    rb_add_all rb vs = (rb, List.replicate vs.length false) := by
  induction vs with
  | nil => simp [rb_add_all]
  | cons v vs ih => simp [rb_add_all, rb_add_refused rb v h, ih, List.replicate_succ]

/-- C6 (failing input). A ring buffer created with `max_size = 2 ^ 31 + 2` accepts its first
`2 ^ 31` elements, and then refuses the next `rb_add`, although `2 ^ 31 + 1 ≤ max_size - 1`
elements are within the usable capacity: with `tail = 0` and `head = 2 ^ 31` the `int`
conversion of `tail - head` is `INT_MIN` and `rb_is_full` answers true. -/
theorem C6_rb_round_trip_fails_large :
    rb_create (2 ^ 31 + 2) 1 true (fun _ => true)
      = .returned (some (rb_fresh (2 ^ 31 + 2) 1))
          [.acquire .handle_block, .acquire .scratch_block, .acquire .storage,
            .acquire .meta_block] ∧
    2 ^ 31 + 1 ≤ (2 ^ 31 + 2) - 1 ∧
    (rb_add_all (rb_fresh (2 ^ 31 + 2) 1) (List.replicate (2 ^ 31) [7])).2
      = List.replicate (List.replicate (2 ^ 31) [7]).length true ∧
    (rb_add (rb_add_all (rb_fresh (2 ^ 31 + 2) 1) (List.replicate (2 ^ 31) [7])).1 [7]).2
      = false := by
  have h := rb_fresh_add_int_min (2 ^ 31 + 2) 1 [7] (List.replicate (2 ^ 31) [7])
    (List.length_replicate _ _) (Nat.le_refl _) (by omega)
  exact ⟨rb_create_ok _ _ _ (by omega) (by omega) (fun _ => rfl), by omega, h.1, h.2.2⟩

/-- C7 (failing input). On a ring buffer created with `max_size = 2 ^ 31 + 2`, after the first
`2 ^ 31` calls of `rb_add`, that is before call number `2 ^ 31 + 1 ≤ max_size - 1`,
`rb_is_full` is already true. -/
theorem C7_rb_full_too_early_large :
    rb_create (2 ^ 31 + 2) 1 true (fun _ => true)
      = .returned (some (rb_fresh (2 ^ 31 + 2) 1))
          [.acquire .handle_block, .acquire .scratch_block, .acquire .storage,
            .acquire .meta_block] ∧
    (List.replicate (2 ^ 31) [7]).length < (2 ^ 31 + 2) - 1 ∧
    rb_is_full (rb_add_all (rb_fresh (2 ^ 31 + 2) 1) (List.replicate (2 ^ 31) [7])).1
      = true := by
  have h := rb_fresh_add_int_min (2 ^ 31 + 2) 1 [7] (List.replicate (2 ^ 31) [7])
    (List.length_replicate _ _) (Nat.le_refl _) (by omega)
  refine ⟨rb_create_ok _ _ _ (by omega) (by omega) (fun _ => rfl), ?_, h.2.1⟩
  rw [List.length_replicate]
  omega

/-- C6 (amended). Ring buffer round trip when every cursor distance fits in `int`: for
`2 ≤ M ≤ 2 ^ 31`, on the ring buffer returned by a successful `rb_create M e`, adding any
`vs` with `vs.length ≤ M - 1` makes every `rb_add` return true; `vs.length` subsequent `rb_get`
calls are not refused (each takes the path that copies the slot out and advances `tail`, on
which the source returns no value) and write the elements of `vs` in the order they were added;
`rb_is_empty` is true afterwards. -/
theorem C6_rb_round_trip (M e : Nat) (valid : Bool) (ok : Nat → Bool) (rb : ring_buffer_t)
    (ev : List mem_event) (vs : List Elem) (out : Elem)
    (hM2 : 2 ≤ M) (hM31 : M ≤ 2 ^ 31)
    (hcreate : rb_create M e valid ok = .returned (some rb) ev)
    (hk : vs.length ≤ M - 1) :
    (rb_add_all rb vs).2 = List.replicate vs.length true ∧
    (rb_get_n (rb_add_all rb vs).1 out vs.length).2 = vs.map (fun v => (none, v)) ∧
    rb_is_empty (rb_get_n (rb_add_all rb vs).1 out vs.length).1 = true := by
  obtain ⟨hrb, -, -⟩ := rb_create_some M e valid ok rb ev hcreate
  subst hrb
  have hadd := rb_fresh_adds M e vs (by omega) (by omega) (by omega)
  have hget := rb_get_n_ok out vs (rb_add_all (rb_fresh M e) vs).1 []
    (List.replicate (M - vs.length) (List.replicate e 0))
    (by rw [hadd]; simp) (by rw [hadd]; simp) (by rw [hadd]; simp)
    (by rw [hadd]; show vs.length < 2 ^ 31; omega)
    (by rw [hadd]; show vs.length < M; omega)
  refine ⟨by rw [hadd], by rw [hget], ?_⟩
  rw [hget, rb_is_empty_near]
  · simp
  · rw [hadd]; show vs.length < 2 ^ 31; omega
  · rw [hadd]; show vs.length < 2 ^ 31; omega

theorem C6_rb_round_trip_witness :
    2 ≤ 4 ∧ 4 ≤ 2 ^ 31 ∧
    rb_create 4 4 true alloc_always
      = .returned (some (rb_fresh 4 4))
          [.acquire .handle_block, .acquire .scratch_block, .acquire .storage,
            .acquire .meta_block] ∧
    sample_elems.length ≤ 4 - 1 ∧
    ((rb_add_all (rb_fresh 4 4) sample_elems).2 = List.replicate sample_elems.length true ∧
     (rb_get_n (rb_add_all (rb_fresh 4 4) sample_elems).1 [0, 0, 0, 0] sample_elems.length).2
       = sample_elems.map (fun v => (none, v)) ∧
     rb_is_empty
       (rb_get_n (rb_add_all (rb_fresh 4 4) sample_elems).1 [0, 0, 0, 0]
         sample_elems.length).1 = true) :=
  ⟨by decide, by decide, rfl, by decide,
    C6_rb_round_trip 4 4 true alloc_always (rb_fresh 4 4) _ sample_elems [0, 0, 0, 0]
      (by decide) (by decide) rfl (by decide)⟩

/-- C7 (amended). Ring buffer fills after `M - 1` adds when every cursor distance fits in
`int`: for `1 ≤ M ≤ 2 ^ 31`, on the ring buffer returned by a successful `rb_create M e`,
`rb_is_full` is false before each of the first `M - 1` calls of `rb_add` and each of them
returns true; after them `rb_is_full` is true and every further `rb_add` returns false. -/
theorem C7_rb_fills_after_capacity (M e : Nat) (valid : Bool) (ok : Nat → Bool)
    (rb : ring_buffer_t) (ev : List mem_event) (vs : List Elem)
    (hM1 : 1 ≤ M) (hM31 : M ≤ 2 ^ 31)
    (hcreate : rb_create M e valid ok = .returned (some rb) ev)
    (hlen : vs.length = M - 1) :
    (∀ i : Nat, i < M - 1 → rb_is_full (rb_add_all rb (vs.take i)).1 = false) ∧
    (rb_add_all rb vs).2 = List.replicate (M - 1) true ∧
    rb_is_full (rb_add_all rb vs).1 = true ∧
    (∀ ws : List Elem,
      (rb_add_all (rb_add_all rb vs).1 ws).2 = List.replicate ws.length false) := by
  obtain ⟨hrb, -, -⟩ := rb_create_some M e valid ok rb ev hcreate
  subst hrb
  have hadd := rb_fresh_adds M e vs (by omega) (by omega) (by omega)
  have hfull : rb_is_full (rb_add_all (rb_fresh M e) vs).1 = true := by
    rw [hadd, rb_is_full_tail_zero _ rfl (by show vs.length < 2 ^ 31; omega)
      (by show 1 ≤ M; omega) (by show M < 2 ^ 64; omega)]
    simp only [decide_eq_true_eq]
    omega
  refine ⟨?_, by rw [hadd, hlen], hfull, ?_⟩
  · intro i hi
    have hti : (vs.take i).length = i := by
      rw [List.length_take]; omega
    have haddi := rb_fresh_adds M e (vs.take i) (by omega) (by omega) (by omega)
    rw [haddi, rb_is_full_tail_zero _ rfl (by show (vs.take i).length < 2 ^ 31; omega)
      (by show 1 ≤ M; omega) (by show M < 2 ^ 64; omega)]
    simp only [decide_eq_false_iff_not]
    omega
  · intro ws
    rw [rb_add_all_full ws _ hfull]

theorem C7_rb_fills_after_capacity_witness :
    1 ≤ 4 ∧ 4 ≤ 2 ^ 31 ∧
    rb_create 4 4 true alloc_always
      = .returned (some (rb_fresh 4 4))
          [.acquire .handle_block, .acquire .scratch_block, .acquire .storage,
            .acquire .meta_block] ∧
    sample_elems.length = 4 - 1 ∧
    ((∀ i : Nat, i < 4 - 1 →
        rb_is_full (rb_add_all (rb_fresh 4 4) (sample_elems.take i)).1 = false) ∧
     (rb_add_all (rb_fresh 4 4) sample_elems).2 = List.replicate (4 - 1) true ∧
     rb_is_full (rb_add_all (rb_fresh 4 4) sample_elems).1 = true ∧
     (∀ ws : List Elem,
       (rb_add_all (rb_add_all (rb_fresh 4 4) sample_elems).1 ws).2
         = List.replicate ws.length false)) :=
  ⟨by decide, by decide, rfl, by decide,
    C7_rb_fills_after_capacity 4 4 true alloc_always (rb_fresh 4 4) _ sample_elems
      (by decide) (by decide) rfl (by decide)⟩

/-- C8 (failing input). On a ring buffer created with `max_size = 3`, in the history add 1,
add 2, get, add 3, add 4, add 5, get every call is successful: the five adds are accepted and
the two gets deliver 1 and then 5. The element 2 has been overwritten before it was read, and
the delivered elements are not an initial segment of the accepted ones. -/
theorem C8_rb_order_broken_after_wrap :
    rb_create 3 1 true alloc_always
      = .returned (some (rb_fresh 3 1))
          [.acquire .handle_block, .acquire .scratch_block, .acquire .storage,
            .acquire .meta_block] ∧
    (rb_history_run (rb_fresh 3 1)
      [.add [1], .add [2], .get [0], .add [3], .add [4], .add [5], .get [0]]).accepted
      = [[1], [2], [3], [4], [5]] ∧
    (rb_history_run (rb_fresh 3 1)
      [.add [1], .add [2], .get [0], .add [3], .add [4], .add [5], .get [0]]).delivered
      = [[1], [5]] ∧
    ¬ ((rb_history_run (rb_fresh 3 1)
      [.add [1], .add [2], .get [0], .add [3], .add [4], .add [5], .get [0]]).delivered
      <+: (rb_history_run (rb_fresh 3 1)
      [.add [1], .add [2], .get [0], .add [3], .add [4], .add [5], .get [0]]).accepted) := by
  refine ⟨rfl, by decide, by decide, ?_⟩
  have ha : (rb_history_run (rb_fresh 3 1)
      [.add [1], .add [2], .get [0], .add [3], .add [4], .add [5], .get [0]]).accepted
      = [[1], [2], [3], [4], [5]] := by decide
  have hd : (rb_history_run (rb_fresh 3 1)
      [.add [1], .add [2], .get [0], .add [3], .add [4], .add [5], .get [0]]).delivered
      = [[1], [5]] := by decide
  rw [ha, hd]
  decide

/-- C9 (failing input). On a ring buffer created with `max_size = 3`: after add, add, get, get,
add it holds one element, fewer than `max_size - 1 = 2`, and `rb_add` is refused; after add,
add, get, add it holds two elements, which is `max_size - 1`, and `rb_add` is accepted. -/
theorem C9_rb_add_disagrees_with_held :
    rb_create 3 1 true alloc_always
      = .returned (some (rb_fresh 3 1))
          [.acquire .handle_block, .acquire .scratch_block, .acquire .storage,
            .acquire .meta_block] ∧
    (rb_held (rb_history_run (rb_fresh 3 1)
        [.add [1], .add [2], .get [0], .get [0], .add [3]]) = 1 ∧
     (rb_add (rb_history_run (rb_fresh 3 1)
        [.add [1], .add [2], .get [0], .get [0], .add [3]]).rb [4]).2 = false) ∧
    (rb_held (rb_history_run (rb_fresh 3 1)
        [.add [1], .add [2], .get [0], .add [3]]) = 2 ∧
     (rb_add (rb_history_run (rb_fresh 3 1)
        [.add [1], .add [2], .get [0], .add [3]]).rb [4]).2 = true) := by
  refine ⟨rfl, ⟨by decide, by decide⟩, ⟨by decide, by decide⟩⟩

/-- C10 (failing input). On a ring buffer created with `max_size = 3`, after add 1, add 2, get,
add 3, add 4 (every call successful) four adds stand against one get, yet `rb_is_empty` is
true, and it is so immediately after the successful `rb_add` of 4. -/
theorem C10_rb_empty_with_outstanding_adds :
    rb_create 3 1 true alloc_always
      = .returned (some (rb_fresh 3 1))
          [.acquire .handle_block, .acquire .scratch_block, .acquire .storage,
            .acquire .meta_block] ∧
    (rb_history_run (rb_fresh 3 1)
      [.add [1], .add [2], .get [0], .add [3], .add [4]]).accepted = [[1], [2], [3], [4]] ∧
    (rb_history_run (rb_fresh 3 1)
      [.add [1], .add [2], .get [0], .add [3], .add [4]]).delivered = [[1]] ∧
    (rb_add (rb_history_run (rb_fresh 3 1)
      [.add [1], .add [2], .get [0], .add [3]]).rb [4]).2 = true ∧
    rb_is_empty (rb_history_run (rb_fresh 3 1)
      [.add [1], .add [2], .get [0], .add [3], .add [4]]).rb = true := by
  refine ⟨rfl, by decide, by decide, by decide, by decide⟩

/-! ## Theorems: peek, reads on empty containers, sizes -/

theorem queue_nonempty_cons (q : queue_t) (h : queue_empty q = false) :
    ∃ x xs, q.container.elems = x :: xs := by
  cases he : q.container.elems with
  | nil => simp [queue_empty, container_size, he] at h
  | cons x xs => exact ⟨x, xs, rfl⟩

/-- C12. Queue peek is a non-destructive preview of get: on every non-empty queue `queue_peek`
returns true and writes the element at index 0, the oldest one; the `queue_get` that follows
returns true and writes that same element; the peek leaves the size and the stored elements
as they were. -/
theorem C12_queue_peek_previews_get (q : queue_t) (out out2 : Elem)
    (hne : queue_empty q = false) :
    (queue_peek q out).2 = true ∧
    q.container.elems.get? 0 = some (queue_peek q out).1 ∧
    (queue_get (queue_step q (.peek out)) out2).2.2 = true ∧
    (queue_get (queue_step q (.peek out)) out2).2.1 = (queue_peek q out).1 ∧
    queue_size (queue_step q (.peek out)) = queue_size q ∧
    (queue_step q (.peek out)).container.elems = q.container.elems := by
  obtain ⟨x, xs, he⟩ := queue_nonempty_cons q hne
  simp [queue_peek, queue_get, queue_step, container_at, container_pop_front, he]

theorem C12_queue_peek_previews_get_witness :
    queue_empty sample_queue_filled = false ∧
    ((queue_peek sample_queue_filled [0, 0, 0, 0]).2 = true ∧
     sample_queue_filled.container.elems.get? 0
       = some (queue_peek sample_queue_filled [0, 0, 0, 0]).1 ∧
     (queue_get (queue_step sample_queue_filled (.peek [0, 0, 0, 0])) [9, 9, 9, 9]).2.2 = true ∧
     (queue_get (queue_step sample_queue_filled (.peek [0, 0, 0, 0])) [9, 9, 9, 9]).2.1
       = (queue_peek sample_queue_filled [0, 0, 0, 0]).1 ∧
     queue_size (queue_step sample_queue_filled (.peek [0, 0, 0, 0]))
       = queue_size sample_queue_filled ∧
     (queue_step sample_queue_filled (.peek [0, 0, 0, 0])).container.elems
       = sample_queue_filled.container.elems) :=
  ⟨by decide,
    C12_queue_peek_previews_get sample_queue_filled [0, 0, 0, 0] [9, 9, 9, 9] (by decide)⟩

/-- C15. Empty queue reads fail cleanly: on every empty queue `queue_get` and `queue_peek`
return false and leave the output location as it was; after `queue_get` the queue is still
empty and its capacity is unchanged (the queue is in fact unchanged). -/
theorem C15_queue_empty_reads_fail (q : queue_t) (out : Elem)
    (hempty : queue_empty q = true) :
    (queue_get q out).2.2 = false ∧ (queue_get q out).2.1 = out ∧
    (queue_peek q out).2 = false ∧ (queue_peek q out).1 = out ∧
    queue_empty (queue_get q out).1 = true ∧
    (queue_get q out).1.meta.capacity = q.meta.capacity ∧
    (queue_get q out).1 = q ∧
    queue_step q (.peek out) = q := by
  have he : q.container.elems = [] := by
    simpa [queue_empty, container_size] using hempty
  simp [queue_get, queue_peek, queue_step, container_pop_front, container_at, he, queue_empty,
    container_size]

theorem C15_queue_empty_reads_fail_witness :
    queue_empty sample_queue = true ∧
    ((queue_get sample_queue [0x55, 0, 0, 0]).2.2 = false ∧
     (queue_get sample_queue [0x55, 0, 0, 0]).2.1 = [0x55, 0, 0, 0] ∧
     (queue_peek sample_queue [0x55, 0, 0, 0]).2 = false ∧
     (queue_peek sample_queue [0x55, 0, 0, 0]).1 = [0x55, 0, 0, 0] ∧
     queue_empty (queue_get sample_queue [0x55, 0, 0, 0]).1 = true ∧
     (queue_get sample_queue [0x55, 0, 0, 0]).1.meta.capacity = sample_queue.meta.capacity ∧
     (queue_get sample_queue [0x55, 0, 0, 0]).1 = sample_queue ∧
     queue_step sample_queue (.peek [0x55, 0, 0, 0]) = sample_queue) :=
  ⟨by decide, C15_queue_empty_reads_fail sample_queue [0x55, 0, 0, 0] (by decide)⟩

theorem stack_nonempty_concat (s : stack_t) (h : stack_empty s = false) :
    ∃ ys y, s.container.elems = ys ++ [y] := by
  rcases List.eq_nil_or_concat s.container.elems with he | ⟨ys, y, he⟩
  · simp [stack_empty, container_size, he] at h
  · exact ⟨ys, y, by simpa using he⟩

/-- C13. Stack peek is a non-destructive preview of pop: on every non-empty stack (whose size
is a `size_t` value) `stack_peek` returns true and writes the element at index `size - 1`, the
last one pushed that is still on the stack; the `stack_pop` that follows returns true and
writes that same element; the peek leaves the size and the stored elements as they were. -/
theorem C13_stack_peek_previews_pop (s : stack_t) (out out2 : Elem)
    (hne : stack_empty s = false) (hsize : stack_size s < SIZE_T_MOD) :
    (stack_peek s out).2 = true ∧
    s.container.elems.get? (stack_size s - 1) = some (stack_peek s out).1 ∧
    s.container.elems.getLast? = some (stack_peek s out).1 ∧
    (stack_pop (stack_step s (.peek out)) out2).2.2 = true ∧
    (stack_pop (stack_step s (.peek out)) out2).2.1 = (stack_peek s out).1 ∧
    stack_size (stack_step s (.peek out)) = stack_size s ∧
    (stack_step s (.peek out)).container.elems = s.container.elems := by
  obtain ⟨ys, y, he⟩ := stack_nonempty_concat s hne
  have hlen : container_size s.container = ys.length + 1 := by
    simp [container_size, he]
  have hidx : size_t_sub (container_size s.container) 1 = ys.length := by
    unfold stack_size at hsize
    rw [hlen] at hsize ⊢
    unfold size_t_sub
    unfold SIZE_T_MOD at hsize ⊢
    omega
  have hget : s.container.elems.get? ys.length = some y := by
    rw [he]; exact get_at_length ys [] y
  have hlast : s.container.elems.getLast? = some y := by
    rw [he]; simp
  have hpeek : stack_peek s out = (y, true) := by
    simp only [stack_peek, container_at, hidx, hget]
  have hpop : stack_pop s out2
      = ({ s with container := { s.container with elems := ys } }, y, true) := by
    simp only [stack_pop, container_pop_back, hlast]
    rw [he, List.dropLast_concat]
  refine ⟨by rw [hpeek], ?_, by rw [hpeek, hlast], ?_, ?_, rfl, rfl⟩
  · rw [hpeek]
    simp only [stack_size, hlen, Nat.add_sub_cancel]
    exact hget
  · show (stack_pop s out2).2.2 = true
    rw [hpop]
  · show (stack_pop s out2).2.1 = (stack_peek s out).1
    rw [hpop, hpeek]

theorem C13_stack_peek_previews_pop_witness :
    stack_empty sample_stack_filled = false ∧
    stack_size sample_stack_filled < SIZE_T_MOD ∧
    ((stack_peek sample_stack_filled [0, 0, 0, 0]).2 = true ∧
     sample_stack_filled.container.elems.get? (stack_size sample_stack_filled - 1)
       = some (stack_peek sample_stack_filled [0, 0, 0, 0]).1 ∧
     sample_stack_filled.container.elems.getLast?
       = some (stack_peek sample_stack_filled [0, 0, 0, 0]).1 ∧
     (stack_pop (stack_step sample_stack_filled (.peek [0, 0, 0, 0])) [9, 9, 9, 9]).2.2 = true ∧
     (stack_pop (stack_step sample_stack_filled (.peek [0, 0, 0, 0])) [9, 9, 9, 9]).2.1
       = (stack_peek sample_stack_filled [0, 0, 0, 0]).1 ∧
     stack_size (stack_step sample_stack_filled (.peek [0, 0, 0, 0]))
       = stack_size sample_stack_filled ∧
     (stack_step sample_stack_filled (.peek [0, 0, 0, 0])).container.elems
       = sample_stack_filled.container.elems) :=
  ⟨by decide, by decide,
    C13_stack_peek_previews_pop sample_stack_filled [0, 0, 0, 0] [9, 9, 9, 9]
      (by decide) (by decide)⟩

/-- C16. Empty stack reads fail cleanly: on every empty stack `stack_pop` and `stack_peek`
return false and leave the output location and the stack as they were, so the stack is still
empty; the index `stack_peek` hands to the storage engine is `0 - 1` in `size_t`, that is
`2 ^ 64 - 1`, and `container_at` rejects it. -/
theorem C16_stack_empty_reads_fail (s : stack_t) (out : Elem)
    (hempty : stack_empty s = true) :
    (stack_pop s out).2.2 = false ∧ (stack_pop s out).2.1 = out ∧
    (stack_peek s out).2 = false ∧ (stack_peek s out).1 = out ∧
    (stack_pop s out).1 = s ∧ stack_empty (stack_pop s out).1 = true ∧
    stack_step s (.peek out) = s ∧
    size_t_sub (container_size s.container) 1 = 2 ^ 64 - 1 ∧
    container_at s.container out (2 ^ 64 - 1) = (out, false) := by
  have he : s.container.elems = [] := by
    simpa [stack_empty, container_size] using hempty
  have hidx : size_t_sub (container_size s.container) 1 = 2 ^ 64 - 1 := by
    simp only [container_size, he, List.length_nil]
    unfold size_t_sub SIZE_T_MOD
    omega
  have hat : ∀ i : Nat, container_at s.container out i = (out, false) := by
    intro i
    simp [container_at, he]
  have hpop : stack_pop s out = (s, out, false) := by
    simp [stack_pop, container_pop_back, he]
  refine ⟨by rw [hpop], by rw [hpop], ?_, ?_, by rw [hpop], ?_, rfl, hidx, hat _⟩
  · simp only [stack_peek, hat]
  · simp only [stack_peek, hat]
  · rw [hpop]; exact hempty

theorem C16_stack_empty_reads_fail_witness :
    stack_empty sample_stack = true ∧
    ((stack_pop sample_stack [0x55, 0, 0, 0]).2.2 = false ∧
     (stack_pop sample_stack [0x55, 0, 0, 0]).2.1 = [0x55, 0, 0, 0] ∧
     (stack_peek sample_stack [0x55, 0, 0, 0]).2 = false ∧
     (stack_peek sample_stack [0x55, 0, 0, 0]).1 = [0x55, 0, 0, 0] ∧
     (stack_pop sample_stack [0x55, 0, 0, 0]).1 = sample_stack ∧
     stack_empty (stack_pop sample_stack [0x55, 0, 0, 0]).1 = true ∧
     stack_step sample_stack (.peek [0x55, 0, 0, 0]) = sample_stack ∧
     size_t_sub (container_size sample_stack.container) 1 = 2 ^ 64 - 1 ∧
     container_at sample_stack.container [0x55, 0, 0, 0] (2 ^ 64 - 1)
       = ([0x55, 0, 0, 0], false)) :=
  ⟨by decide, C16_stack_empty_reads_fail sample_stack [0x55, 0, 0, 0] (by decide)⟩

theorem map_fst_tagged (l : List Elem) :
    (l.map (fun v => (true, v))).map Prod.fst = List.replicate l.length true := by
  induction l with
  | nil => rfl
  | cons x l ih => simp only [List.map_cons, List.length_cons, List.replicate_succ, ih]

/-- C20. Queue size tracks adds and gets: starting from an empty queue of capacity N (N = 0
meaning unbounded), the adds of `vs` (`vs.length ≤ N` when bounded, no `push_back` failure) all
return true and `queue_size` is then `vs.length`; `j ≤ vs.length` subsequent `queue_get` calls
all return true and `queue_size` is then `vs.length - j`; and for every queue `queue_empty` is
true exactly when `queue_size` is 0. -/
theorem C20_queue_size_tracks (q : queue_t) (vs : List Elem) (out : Elem) (j : Nat)
    (hempty : queue_empty q = true)
    (hcap : q.meta.capacity = 0 ∨ vs.length ≤ q.meta.capacity)
    (hj : j ≤ vs.length) :
    (queue_add_all q vs).2 = List.replicate vs.length true ∧
    queue_size (queue_add_all q vs).1 = vs.length ∧
    (queue_get_n (queue_add_all q vs).1 out j).2.map Prod.fst = List.replicate j true ∧
    queue_size (queue_get_n (queue_add_all q vs).1 out j).1 = vs.length - j ∧
    (∀ q1 : queue_t, queue_empty q1 = true ↔ queue_size q1 = 0) := by
  have he : q.container.elems = [] := by
    simpa [queue_empty, container_size] using hempty
  have hadd := queue_add_all_ok vs q (by simpa [he] using hcap)
  have htake : (vs.take j).length = j := by
    rw [List.length_take]; omega
  have hget := queue_get_n_ok out (vs.take j) (queue_add_all q vs).1 (vs.drop j)
    (by simp [hadd, he])
  rw [htake] at hget
  refine ⟨by rw [hadd], ?_, ?_, ?_, ?_⟩
  · rw [hadd]; simp [queue_size, container_size, he]
  · rw [hget, map_fst_tagged, htake]
  · rw [hget]
    simp [queue_size, container_size]
  · intro q1
    simp [queue_empty, queue_size]

theorem C20_queue_size_tracks_witness :
    queue_empty sample_queue = true ∧
    (sample_queue.meta.capacity = 0 ∨ sample_elems.length ≤ sample_queue.meta.capacity) ∧
    2 ≤ sample_elems.length ∧
    ((queue_add_all sample_queue sample_elems).2 = List.replicate sample_elems.length true ∧
     queue_size (queue_add_all sample_queue sample_elems).1 = sample_elems.length ∧
     (queue_get_n (queue_add_all sample_queue sample_elems).1 [0, 0, 0, 0] 2).2.map Prod.fst
       = List.replicate 2 true ∧
     queue_size (queue_get_n (queue_add_all sample_queue sample_elems).1 [0, 0, 0, 0] 2).1
       = sample_elems.length - 2 ∧
     (∀ q1 : queue_t, queue_empty q1 = true ↔ queue_size q1 = 0)) :=
  ⟨by decide, by decide, by decide,
    C20_queue_size_tracks sample_queue sample_elems [0, 0, 0, 0] 2
      (by decide) (by decide) (by decide)⟩

theorem rb_abs_diff_eq_cursors (rb : ring_buffer_t) (h : rb.meta.head = rb.meta.tail) :
    rb_abs_diff rb = 0 := by
  have hs : size_t_sub rb.meta.tail rb.meta.head = 0 := by
    rw [h]; unfold size_t_sub SIZE_T_MOD; omega
  unfold rb_abs_diff
  rw [hs]
  decide

theorem rb_is_empty_eq_cursors (rb : ring_buffer_t) (h : rb.meta.head = rb.meta.tail) :
    rb_is_empty rb = true := by
  simp [rb_is_empty, rb_abs_diff_eq_cursors rb h]

theorem rb_is_empty_iff_mod (rb : ring_buffer_t) :
    rb_is_empty rb = true ↔ rb.meta.head % 2 ^ 32 = rb.meta.tail % 2 ^ 32 := by
  simp only [rb_is_empty, rb_abs_diff, decide_eq_true_eq]
  unfold c_abs size_t_to_int size_t_sub SIZE_T_MOD
  simp only [Int.ofNat_eq_coe]
  constructor
  · intro h
    split_ifs at h <;> omega
  · intro h
    split_ifs <;> omega

/-- C17. Empty ring buffer reads fail cleanly: in every ring buffer state with `head = tail`,
`rb_get` and `rb_peek` return false and leave the output location as it was, and `rb_get`
leaves the whole state, hence `head`, `tail` and every stored slot, unchanged. -/
theorem C17_rb_empty_reads_fail (rb : ring_buffer_t) (out : Elem)
    (heq : rb.meta.head = rb.meta.tail) :
    (rb_get rb out).2.2 = some false ∧ (rb_get rb out).2.1 = out ∧
    (rb_peek rb out).2 = false ∧ (rb_peek rb out).1 = out ∧
    (rb_get rb out).1 = rb ∧
    (rb_get rb out).1.meta.head = rb.meta.head ∧
    (rb_get rb out).1.meta.tail = rb.meta.tail ∧
    (rb_get rb out).1.container.elems = rb.container.elems ∧
    rb_step rb (.peek out) = rb := by
  have he := rb_is_empty_eq_cursors rb heq
  have hget : rb_get rb out = (rb, out, some false) := by
    simp [rb_get, he]
  have hpeek : rb_peek rb out = (out, false) := by
    simp [rb_peek, he]
  rw [hget, hpeek]
  exact ⟨rfl, rfl, rfl, rfl, rfl, rfl, rfl, rfl, rfl⟩

theorem C17_rb_empty_reads_fail_witness :
    sample_rb_drained.meta.head = sample_rb_drained.meta.tail ∧
    ((rb_get sample_rb_drained [0x55]).2.2 = some false ∧
     (rb_get sample_rb_drained [0x55]).2.1 = [0x55] ∧
     (rb_peek sample_rb_drained [0x55]).2 = false ∧
     (rb_peek sample_rb_drained [0x55]).1 = [0x55] ∧
     (rb_get sample_rb_drained [0x55]).1 = sample_rb_drained ∧
     (rb_get sample_rb_drained [0x55]).1.meta.head = sample_rb_drained.meta.head ∧
     (rb_get sample_rb_drained [0x55]).1.meta.tail = sample_rb_drained.meta.tail ∧
     (rb_get sample_rb_drained [0x55]).1.container.elems = sample_rb_drained.container.elems ∧
     rb_step sample_rb_drained (.peek [0x55]) = sample_rb_drained) :=
  ⟨by decide, C17_rb_empty_reads_fail sample_rb_drained [0x55] (by decide)⟩

theorem get_lt_length (l : List Elem) (i : Nat) (h : i < l.length) :
    ∃ x, l.get? i = some x := by
  exact ⟨l.get ⟨i, h⟩, List.get?_eq_get h⟩

/-- C14 (amended). Ring buffer peek is a non-destructive preview of get while the cursors fit
in 32 bits: on every ring buffer state whose cursors differ (`head ≠ tail`), with
`head, tail < max_size ≤ 2 ^ 32` and a storage of `max_size` slots, `rb_peek` returns true and
writes the slot at `tail`; the `rb_get` that follows is not refused and delivers that same
value; and the peek changes neither `head`, nor `tail`, nor `rb_size`, nor any stored slot. -/
theorem C14_rb_peek_previews_get (rb : ring_buffer_t) (out out2 : Elem)
    (hcur : rb.meta.head ≠ rb.meta.tail)
    (hhead : rb.meta.head < rb.meta.max_size)
    (htail : rb.meta.tail < rb.meta.max_size)
    (hM : rb.meta.max_size ≤ 2 ^ 32)
    (hslots : rb.container.elems.length = rb.meta.max_size) :
    (rb_peek rb out).2 = true ∧
    rb.container.elems.get? rb.meta.tail = some (rb_peek rb out).1 ∧
    (rb_get (rb_step rb (.peek out)) out2).2.2 ≠ some false ∧
    (rb_get (rb_step rb (.peek out)) out2).2.1 = (rb_peek rb out).1 ∧
    (rb_step rb (.peek out)).meta.head = rb.meta.head ∧
    (rb_step rb (.peek out)).meta.tail = rb.meta.tail ∧
    rb_size (rb_step rb (.peek out)) = rb_size rb ∧
    (rb_step rb (.peek out)).container.elems = rb.container.elems := by
  have hne : rb_is_empty rb = false := by
    cases hE : rb_is_empty rb with
    | false => rfl
    | true =>
      have hm := (rb_is_empty_iff_mod rb).1 hE
      omega
  obtain ⟨x, hx⟩ := get_lt_length rb.container.elems rb.meta.tail (by omega)
  have hpeek : rb_peek rb out = (x, true) := by
    simp only [rb_peek, hne, container_at, hx, Bool.false_eq_true, if_false]
  have hget : (rb_get rb out2).2 = (x, none) := by
    simp only [rb_get, hne, container_at, hx, Bool.false_eq_true, if_false,
      Bool.true_eq_false]
  refine ⟨by rw [hpeek], by rw [hpeek, hx], ?_, ?_, rfl, rfl, rfl, rfl⟩
  · show (rb_get rb out2).2.2 ≠ some false
    rw [hget]; simp
  · show (rb_get rb out2).2.1 = (rb_peek rb out).1
    rw [hget, hpeek]

theorem C14_rb_peek_previews_get_witness :
    sample_rb.meta.head ≠ sample_rb.meta.tail ∧
    sample_rb.meta.head < sample_rb.meta.max_size ∧
    sample_rb.meta.tail < sample_rb.meta.max_size ∧
    sample_rb.meta.max_size ≤ 2 ^ 32 ∧
    sample_rb.container.elems.length = sample_rb.meta.max_size ∧
    ((rb_peek sample_rb [0]).2 = true ∧
     sample_rb.container.elems.get? sample_rb.meta.tail = some (rb_peek sample_rb [0]).1 ∧
     (rb_get (rb_step sample_rb (.peek [0])) [9]).2.2 ≠ some false ∧
     (rb_get (rb_step sample_rb (.peek [0])) [9]).2.1 = (rb_peek sample_rb [0]).1 ∧
     (rb_step sample_rb (.peek [0])).meta.head = sample_rb.meta.head ∧
     (rb_step sample_rb (.peek [0])).meta.tail = sample_rb.meta.tail ∧
     rb_size (rb_step sample_rb (.peek [0])) = rb_size sample_rb ∧
     (rb_step sample_rb (.peek [0])).container.elems = sample_rb.container.elems) :=
  ⟨by decide, by decide, by decide, by decide, by decide,
    C14_rb_peek_previews_get sample_rb [0] [9] (by decide) (by decide) (by decide) (by decide)
      (by decide)⟩

/-- C11 (failing input). On a ring buffer created with `max_size = 3`, after add 1, add 2, get
the ring buffer holds one element and `rb_size` is 1; the successful add of 3 wraps `head` to
0 and leaves `rb_size` at 1, although two elements are held and the modular distance
`(head - tail + max_size) mod max_size` is 2; the successful get that follows raises `rb_size`
to 2 while one element is held. -/
theorem C11_rb_size_wrong_after_wrap :
    rb_create 3 1 true alloc_always
      = .returned (some (rb_fresh 3 1))
          [.acquire .handle_block, .acquire .scratch_block, .acquire .storage,
            .acquire .meta_block] ∧
    rb_size (rb_history_run (rb_fresh 3 1) [.add [1], .add [2], .get [0]]).rb = 1 ∧
    (rb_history_run (rb_fresh 3 1) [.add [1], .add [2], .get [0], .add [3]]).accepted
      = [[1], [2], [3]] ∧
    rb_size (rb_history_run (rb_fresh 3 1) [.add [1], .add [2], .get [0], .add [3]]).rb = 1 ∧
    rb_modular_distance
      (rb_history_run (rb_fresh 3 1) [.add [1], .add [2], .get [0], .add [3]]).rb = 2 ∧
    rb_held (rb_history_run (rb_fresh 3 1) [.add [1], .add [2], .get [0], .add [3]]) = 2 ∧
    (rb_history_run (rb_fresh 3 1)
      [.add [1], .add [2], .get [0], .add [3], .get [0]]).delivered = [[1], [2]] ∧
    rb_size (rb_history_run (rb_fresh 3 1)
      [.add [1], .add [2], .get [0], .add [3], .get [0]]).rb = 2 ∧
    rb_held (rb_history_run (rb_fresh 3 1)
      [.add [1], .add [2], .get [0], .add [3], .get [0]]) = 1 := by
  refine ⟨rfl, by decide, by decide, by decide, by decide, by decide, by decide, by decide,
    by decide⟩

/-- C18 (failing input). On a ring buffer created with `max_size = 3` that holds one element,
`rb_get` copies the slot at `tail` out and advances `tail`, and then reaches the end of the
function body: no value is returned. On no state and no path at all does `rb_get` return
true. -/
theorem C18_rb_get_returns_no_value :
    rb_create 3 1 true alloc_always
      = .returned (some (rb_fresh 3 1))
          [.acquire .handle_block, .acquire .scratch_block, .acquire .storage,
            .acquire .meta_block] ∧
    rb_add (rb_fresh 3 1) [0x55] =
      ({ container := { strategy := .CONTAINER_VECTOR_BASED, esize := 1,
                        elems := [[0x55], [0], [0]] },
         meta := { tail := 0, head := 1, max_size := 3 } }, true) ∧
    rb_get (rb_add (rb_fresh 3 1) [0x55]).1 [0] =
      ({ container := { strategy := .CONTAINER_VECTOR_BASED, esize := 1,
                        elems := [[0x55], [0], [0]] },
         meta := { tail := 1, head := 1, max_size := 3 } }, [0x55], none) ∧
    (∀ (rb : ring_buffer_t) (out : Elem), (rb_get rb out).2.2 ≠ some true) := by
  refine ⟨rfl, by decide, by decide, ?_⟩
  intro rb out
  simp only [rb_get]
  split_ifs <;> simp

/-- C19 (failing input). On a ring buffer created with `max_size = 3`, in the history add 1,
add 2, get, add 3, get every call is successful; immediately after the last `rb_get`, which
delivers 2 and leaves one element held, `rb_is_full` is true (`head = 0`, `tail = 2`). -/
theorem C19_rb_full_after_get :
    rb_create 3 1 true alloc_always
      = .returned (some (rb_fresh 3 1))
          [.acquire .handle_block, .acquire .scratch_block, .acquire .storage,
            .acquire .meta_block] ∧
    (rb_history_run (rb_fresh 3 1)
      [.add [1], .add [2], .get [0], .add [3]]).delivered = [[1]] ∧
    (rb_history_run (rb_fresh 3 1)
      [.add [1], .add [2], .get [0], .add [3], .get [0]]).accepted = [[1], [2], [3]] ∧
    (rb_history_run (rb_fresh 3 1)
      [.add [1], .add [2], .get [0], .add [3], .get [0]]).delivered = [[1], [2]] ∧
    (rb_history_run (rb_fresh 3 1)
      [.add [1], .add [2], .get [0], .add [3], .get [0]]).rb.meta
      = { tail := 2, head := 0, max_size := 3 } ∧
    rb_is_full (rb_history_run (rb_fresh 3 1)
      [.add [1], .add [2], .get [0], .add [3], .get [0]]).rb = true := by
  refine ⟨rfl, by decide, by decide, by decide, by decide, by decide⟩

/-! ## Theorems: clear, fullness, refused adds -/

theorem queue_full_iff (q : queue_t) :
    queue_full q = true ↔ (q.meta.capacity ≠ 0 ∧ queue_size q = q.meta.capacity) := by
  unfold queue_full queue_size
  by_cases h : q.meta.capacity = 0 <;> simp [h]

theorem stack_full_iff (s : stack_t) :
    stack_full s = true ↔ (s.meta.capacity ≠ 0 ∧ stack_size s = s.meta.capacity) := by
  unfold stack_full stack_size
  by_cases h : s.meta.capacity = 0 <;> simp [h]

/-- C21. Clear empties a queue or stack: for every queue and every stack, whatever they hold,
`queue_clear` / `stack_clear` returns true, afterwards the size is 0 and `queue_empty` /
`stack_empty` is true, and the capacity is unchanged; the cleared container then accepts as
many adds (pushes) as its capacity says, and, when it is bounded, refuses the next one. -/
theorem C21_clear_empties (q : queue_t) (s : stack_t) (vq vs : List Elem) (v : Elem) (b : Bool)
    (hq : vq.length = q.meta.capacity) (hs : vs.length = s.meta.capacity) :
    ((queue_clear q).2 = true ∧ queue_size (queue_clear q).1 = 0 ∧
      queue_empty (queue_clear q).1 = true ∧
      (queue_clear q).1.meta.capacity = q.meta.capacity ∧
      (queue_add_all (queue_clear q).1 vq).2 = List.replicate q.meta.capacity true ∧
      (q.meta.capacity ≠ 0 →
        (queue_add (queue_add_all (queue_clear q).1 vq).1 v b).2 = false)) ∧
    ((stack_clear s).2 = true ∧ stack_size (stack_clear s).1 = 0 ∧
      stack_empty (stack_clear s).1 = true ∧
      (stack_clear s).1.meta.capacity = s.meta.capacity ∧
      (stack_push_all (stack_clear s).1 vs).2 = List.replicate s.meta.capacity true ∧
      (s.meta.capacity ≠ 0 →
        (stack_push (stack_push_all (stack_clear s).1 vs).1 v b).2 = false)) := by
  constructor
  · have hadd := queue_add_all_ok vq (queue_clear q).1
      (by right; simp [queue_clear, container_clear, hq])
    refine ⟨rfl, rfl, rfl, rfl, by rw [hadd, hq], ?_⟩
    intro hN
    have hfull : queue_full (queue_add_all (queue_clear q).1 vq).1 = true := by
      rw [hadd, queue_full_iff]
      simp [queue_clear, container_clear, queue_size, container_size, hq, hN]
    rw [queue_add_full _ v b hfull]
  · have hpush := stack_push_all_ok vs (stack_clear s).1
      (by right; simp [stack_clear, container_clear, hs])
    refine ⟨rfl, rfl, rfl, rfl, by rw [hpush, hs], ?_⟩
    intro hN
    have hfull : stack_full (stack_push_all (stack_clear s).1 vs).1 = true := by
      rw [hpush, stack_full_iff]
      simp [stack_clear, container_clear, stack_size, container_size, hs, hN]
    rw [stack_push_full _ v b hfull]

theorem C21_clear_empties_witness :
    sample_elems.length = sample_queue_filled.meta.capacity ∧
    sample_elems.length = sample_stack_filled.meta.capacity ∧
    (((queue_clear sample_queue_filled).2 = true ∧
      queue_size (queue_clear sample_queue_filled).1 = 0 ∧
      queue_empty (queue_clear sample_queue_filled).1 = true ∧
      (queue_clear sample_queue_filled).1.meta.capacity = sample_queue_filled.meta.capacity ∧
      (queue_add_all (queue_clear sample_queue_filled).1 sample_elems).2
        = List.replicate sample_queue_filled.meta.capacity true ∧
      (sample_queue_filled.meta.capacity ≠ 0 →
        (queue_add (queue_add_all (queue_clear sample_queue_filled).1 sample_elems).1
          [9, 0, 0, 0] true).2 = false)) ∧
     ((stack_clear sample_stack_filled).2 = true ∧
      stack_size (stack_clear sample_stack_filled).1 = 0 ∧
      stack_empty (stack_clear sample_stack_filled).1 = true ∧
      (stack_clear sample_stack_filled).1.meta.capacity = sample_stack_filled.meta.capacity ∧
      (stack_push_all (stack_clear sample_stack_filled).1 sample_elems).2
        = List.replicate sample_stack_filled.meta.capacity true ∧
      (sample_stack_filled.meta.capacity ≠ 0 →
        (stack_push (stack_push_all (stack_clear sample_stack_filled).1 sample_elems).1
          [9, 0, 0, 0] true).2 = false))) :=
  ⟨by decide, by decide,
    C21_clear_empties sample_queue_filled sample_stack_filled sample_elems sample_elems
      [9, 0, 0, 0] true (by decide) (by decide)⟩

/-- C22. Clear empties a ring buffer: for every ring buffer state `rb_clear` returns true, sets
`head` and `tail` to 0 and leaves `max_size` and every stored slot unchanged; afterwards
`rb_is_empty` is true and `rb_size` is 0, whatever the state was. -/
theorem C22_rb_clear_resets_cursors (rb : ring_buffer_t) :
    (rb_clear rb).2 = true ∧
    (rb_clear rb).1.meta.head = 0 ∧ (rb_clear rb).1.meta.tail = 0 ∧
    (rb_clear rb).1.meta.max_size = rb.meta.max_size ∧
    (rb_clear rb).1.container = rb.container ∧
    rb_is_empty (rb_clear rb).1 = true ∧
    rb_size (rb_clear rb).1 = 0 := by
  have hz := rb_abs_diff_eq_cursors (rb_clear rb).1 rfl
  refine ⟨rfl, rfl, rfl, rfl, rfl, rb_is_empty_eq_cursors _ rfl, ?_⟩
  unfold rb_size
  rw [hz]
  decide

/-- C23. Fullness policy of queue and stack: for every queue `queue_full` is true if and only
if the capacity is not 0 and the current size equals the capacity; `stack_full` obeys the same
equivalence for every stack. -/
theorem C23_full_iff_capacity_reached (q : queue_t) (s : stack_t) :
    (queue_full q = true ↔ (q.meta.capacity ≠ 0 ∧ queue_size q = q.meta.capacity)) ∧
    (stack_full s = true ↔ (s.meta.capacity ≠ 0 ∧ stack_size s = s.meta.capacity)) :=
  ⟨queue_full_iff q, stack_full_iff s⟩

/-- C25. A refused add changes nothing: whenever the queue (the stack) is full, `queue_add`
(`stack_push`) returns false, whatever the allocator would have answered, and the queue (the
stack) after the call is the one before it: same elements in the same order, same size, same
capacity. -/
theorem C25_refused_add_changes_nothing (q : queue_t) (s : stack_t) (v : Elem) (b : Bool)
    (hq : queue_full q = true) (hs : stack_full s = true) :
    ((queue_add q v b).2 = false ∧ (queue_add q v b).1 = q ∧
      (queue_add q v b).1.container.elems = q.container.elems ∧
      queue_size (queue_add q v b).1 = queue_size q ∧
      (queue_add q v b).1.meta.capacity = q.meta.capacity) ∧
    ((stack_push s v b).2 = false ∧ (stack_push s v b).1 = s ∧
      (stack_push s v b).1.container.elems = s.container.elems ∧
      stack_size (stack_push s v b).1 = stack_size s ∧
      (stack_push s v b).1.meta.capacity = s.meta.capacity) := by
  rw [queue_add_full q v b hq, stack_push_full s v b hs]
  exact ⟨⟨rfl, rfl, rfl, rfl, rfl⟩, ⟨rfl, rfl, rfl, rfl, rfl⟩⟩

theorem C25_refused_add_changes_nothing_witness :
    queue_full sample_queue_filled = true ∧ stack_full sample_stack_filled = true ∧
    (((queue_add sample_queue_filled [9, 0, 0, 0] true).2 = false ∧
      (queue_add sample_queue_filled [9, 0, 0, 0] true).1 = sample_queue_filled ∧
      (queue_add sample_queue_filled [9, 0, 0, 0] true).1.container.elems
        = sample_queue_filled.container.elems ∧
      queue_size (queue_add sample_queue_filled [9, 0, 0, 0] true).1
        = queue_size sample_queue_filled ∧
      (queue_add sample_queue_filled [9, 0, 0, 0] true).1.meta.capacity
        = sample_queue_filled.meta.capacity) ∧
     ((stack_push sample_stack_filled [9, 0, 0, 0] true).2 = false ∧
      (stack_push sample_stack_filled [9, 0, 0, 0] true).1 = sample_stack_filled ∧
      (stack_push sample_stack_filled [9, 0, 0, 0] true).1.container.elems
        = sample_stack_filled.container.elems ∧
      stack_size (stack_push sample_stack_filled [9, 0, 0, 0] true).1
        = stack_size sample_stack_filled ∧
      (stack_push sample_stack_filled [9, 0, 0, 0] true).1.meta.capacity
        = sample_stack_filled.meta.capacity)) :=
  ⟨by decide, by decide,
    C25_refused_add_changes_nothing sample_queue_filled sample_stack_filled [9, 0, 0, 0] true
      (by decide) (by decide)⟩

/-- C24 (failing input). On a ring buffer created with `max_size = 3`: after add, add, get, add
the cursors are `head = 0`, `tail = 1`, the modular distance is 2 = `max_size - 1`, and
`rb_is_full` is false; after one more get they are `head = 0`, `tail = 2`, the modular distance
is 1, and `rb_is_full` is true. Both states have `head < max_size` and `tail < max_size`. -/
theorem C24_rb_full_not_modular :
    rb_create 3 1 true alloc_always
      = .returned (some (rb_fresh 3 1))
          [.acquire .handle_block, .acquire .scratch_block, .acquire .storage,
            .acquire .meta_block] ∧
    ((rb_history_run (rb_fresh 3 1) [.add [1], .add [2], .get [0], .add [3]]).rb.meta
        = { tail := 1, head := 0, max_size := 3 } ∧
      rb_modular_distance
        (rb_history_run (rb_fresh 3 1) [.add [1], .add [2], .get [0], .add [3]]).rb = 3 - 1 ∧
      rb_is_full
        (rb_history_run (rb_fresh 3 1) [.add [1], .add [2], .get [0], .add [3]]).rb = false) ∧
    ((rb_history_run (rb_fresh 3 1)
        [.add [1], .add [2], .get [0], .add [3], .get [0]]).rb.meta
        = { tail := 2, head := 0, max_size := 3 } ∧
      rb_modular_distance
        (rb_history_run (rb_fresh 3 1)
          [.add [1], .add [2], .get [0], .add [3], .get [0]]).rb = 1 ∧
      rb_is_full
        (rb_history_run (rb_fresh 3 1)
          [.add [1], .add [2], .get [0], .add [3], .get [0]]).rb = true) := by
  refine ⟨rfl, ⟨by decide, by decide, by decide⟩, ⟨by decide, by decide, by decide⟩⟩

/-- C26 (counterexample). Called with size 0, a non-zero element size and no valid allocator
installed, `rb_create` does not return `NULL`: the assertion on `size` fires before the
allocator is probed. -/
theorem C26_rb_create_size_zero_asserts :
    rb_create 0 1 false alloc_always = .assert_failed ∧
    rb_create 0 1 false alloc_always ≠ .returned none [] := by
  refine ⟨rfl, by decide⟩

/-- C26 (amended). No allocator, no handle: when the allocator provider reports that no valid
allocator is installed, `queue_create` and `stack_create` return `NULL` for every size and
every non-zero element size, and `rb_create` does so for every non-zero size and every
non-zero element size; no resource is acquired, whatever the allocator would have answered to
a request (in particular with an allocator that grants every request), so no allocation is
requested. -/
theorem C26_no_allocator_no_handle (size esize : Nat) (alloc_ok : Nat → Bool)
    (he : esize ≠ 0) :
    queue_create size esize false alloc_ok = .returned none [] ∧
    stack_create size esize false alloc_ok = .returned none [] ∧
    (size ≠ 0 → rb_create size esize false alloc_ok = .returned none []) := by
  refine ⟨?_, ?_, ?_⟩
  · simp [queue_create, he]
  · simp [stack_create, he]
  · intro hs
    simp [rb_create, he, hs]

theorem C26_no_allocator_no_handle_witness :
    4 ≠ 0 ∧
    (queue_create 10 4 false alloc_always = .returned none [] ∧
     stack_create 10 4 false alloc_always = .returned none [] ∧
     (10 ≠ 0 → rb_create 10 4 false alloc_always = .returned none [])) :=
  ⟨by decide, C26_no_allocator_no_handle 10 4 alloc_always (by decide)⟩

/-- C27. Zero element size is a fail-fast contract violation: with `esize = 0`,
`queue_create`, `stack_create` and `rb_create` raise the assertion for every requested size,
whatever the state of the allocator provider (it is not consulted), and return neither a handle
nor `NULL`; `rb_create` does the same for `size = 0` with any element size. -/
theorem C27_zero_esize_asserts (size esize : Nat) (valid : Bool) (alloc_ok : Nat → Bool) :
    queue_create size 0 valid alloc_ok = .assert_failed ∧
    stack_create size 0 valid alloc_ok = .assert_failed ∧
    rb_create size 0 valid alloc_ok = .assert_failed ∧
    rb_create 0 esize valid alloc_ok = .assert_failed := by
  refine ⟨rfl, rfl, rfl, ?_⟩
  by_cases he : esize = 0
  · simp [rb_create, he]
  · simp [rb_create, he]

/-- C28. Null arguments are fail-fast contract violations: every public operation of the
queue, the stack and the ring buffer (delete, empty, full, add/push, get/pop, peek, size,
clear) called with a null handle (for delete also with the address of a null handle), and
every add/push, get/pop and peek called with a null data pointer on a valid handle, raises the
assertion: nothing is returned and, the call having no result state, no container is
modified. -/
theorem C28_null_arguments_assert (q : queue_t) (s : stack_t) (rb : ring_buffer_t)
    (data : Option Elem) (b : Bool) :
    (queue_delete_call none = .assert_failed ∧ queue_delete_call (some none) = .assert_failed ∧
     queue_empty_call none = .assert_failed ∧ queue_full_call none = .assert_failed ∧
     queue_add_call none data b = .assert_failed ∧ queue_get_call none data = .assert_failed ∧
     queue_peek_call none data = .assert_failed ∧ queue_size_call none = .assert_failed ∧
     queue_clear_call none = .assert_failed ∧
     queue_add_call (some q) none b = .assert_failed ∧
     queue_get_call (some q) none = .assert_failed ∧
     queue_peek_call (some q) none = .assert_failed) ∧
    (stack_delete_call none = .assert_failed ∧ stack_delete_call (some none) = .assert_failed ∧
     stack_empty_call none = .assert_failed ∧ stack_full_call none = .assert_failed ∧
     stack_push_call none data b = .assert_failed ∧ stack_pop_call none data = .assert_failed ∧
     stack_peek_call none data = .assert_failed ∧ stack_size_call none = .assert_failed ∧
     stack_clear_call none = .assert_failed ∧
     stack_push_call (some s) none b = .assert_failed ∧
     stack_pop_call (some s) none = .assert_failed ∧
     stack_peek_call (some s) none = .assert_failed) ∧
    (rb_delete_call none = .assert_failed ∧ rb_delete_call (some none) = .assert_failed ∧
     rb_is_empty_call none = .assert_failed ∧ rb_is_full_call none = .assert_failed ∧
     rb_add_call none data = .assert_failed ∧ rb_get_call none data = .assert_failed ∧
     rb_peek_call none data = .assert_failed ∧ rb_size_call none = .assert_failed ∧
     rb_clear_call none = .assert_failed ∧
     rb_add_call (some rb) none = .assert_failed ∧
     rb_get_call (some rb) none = .assert_failed ∧
     rb_peek_call (some rb) none = .assert_failed) := by
  refine ⟨⟨rfl, rfl, rfl, rfl, rfl, rfl, rfl, rfl, rfl, rfl, rfl, rfl⟩,
    ⟨rfl, rfl, rfl, rfl, rfl, rfl, rfl, rfl, rfl, rfl, rfl, rfl⟩,
    ⟨rfl, rfl, rfl, rfl, rfl, rfl, rfl, rfl, rfl, rfl, rfl, rfl⟩⟩

/-! ## Theorems: constructors and resources -/

/-- C29 (failing input). `rb_create(3, 1)` with a valid allocator: when the allocation of the
scratch element fails, `NULL` is returned and the handle block stays acquired; when the
creation of the container fails, the handle block and the scratch element stay acquired; when
the second `push_back` of the pre-fill fails, the handle block, the scratch element and the
container stay acquired. Only the failure of the meta block allocation is unwound. -/
theorem C29_rb_create_leaks_on_failure :
    (rb_create 3 1 true (alloc_fails_at 1) = .returned none [.acquire .handle_block] ∧
      live_resources [.acquire .handle_block] = [.handle_block]) ∧
    (rb_create 3 1 true (alloc_fails_at 2)
        = .returned none [.acquire .handle_block, .acquire .scratch_block] ∧
      live_resources [.acquire .handle_block, .acquire .scratch_block]
        = [.handle_block, .scratch_block]) ∧
    (rb_create 3 1 true (alloc_fails_at 4)
        = .returned none [.acquire .handle_block, .acquire .scratch_block, .acquire .storage] ∧
      live_resources [.acquire .handle_block, .acquire .scratch_block, .acquire .storage]
        = [.handle_block, .scratch_block, .storage]) ∧
    (rb_create 3 1 true (alloc_fails_at 6)
        = .returned none [.acquire .handle_block, .acquire .scratch_block, .acquire .storage,
            .release .storage, .release .scratch_block, .release .handle_block] ∧
      live_resources [.acquire .handle_block, .acquire .scratch_block, .acquire .storage,
            .release .storage, .release .scratch_block, .release .handle_block] = []) := by
  refine ⟨⟨by decide, by decide⟩, ⟨by decide, by decide⟩, ⟨by decide, by decide⟩,
    ⟨by decide, by decide⟩⟩

theorem queue_create_cases (size esize : Nat) (valid : Bool) (ok : Nat → Bool) :
    queue_create size esize valid ok = .assert_failed ∨
    queue_create size esize valid ok = .returned none [] ∨
    queue_create size esize valid ok
      = .returned none [.acquire .handle_block, .release .handle_block] ∨
    queue_create size esize valid ok
      = .returned none [.acquire .handle_block, .acquire .storage,
          .release .storage, .release .handle_block] ∨
    queue_create size esize valid ok
      = .returned (some { container := { strategy := .CONTAINER_LINKED_LIST_BASED,
                                         esize := esize, elems := [] },
                          meta := { capacity := size } })
          [.acquire .handle_block, .acquire .storage, .acquire .meta_block] := by
  unfold queue_create container_create
  split_ifs <;> simp

theorem stack_create_cases (size esize : Nat) (valid : Bool) (ok : Nat → Bool) :
    stack_create size esize valid ok = .assert_failed ∨
    stack_create size esize valid ok = .returned none [] ∨
    stack_create size esize valid ok
      = .returned none [.acquire .handle_block, .release .handle_block] ∨
    stack_create size esize valid ok
      = .returned none [.acquire .handle_block, .acquire .storage,
          .release .storage, .release .handle_block] ∨
    stack_create size esize valid ok
      = .returned (some { container := { strategy := .CONTAINER_VECTOR_BASED,
                                         esize := esize, elems := [] },
                          meta := { capacity := size } })
          [.acquire .handle_block, .acquire .storage, .acquire .meta_block] := by
  unfold stack_create container_create
  split_ifs <;> simp

theorem queue_create_null_unwound (size esize : Nat) (valid : Bool) (ok : Nat → Bool)
    (ev : List mem_event) (h : queue_create size esize valid ok = .returned none ev) :
    live_resources ev = [] := by
  rcases queue_create_cases size esize valid ok with h1 | h1 | h1 | h1 | h1 <;>
    rw [h1] at h <;> simp at h <;> subst h <;> decide

theorem stack_create_null_unwound (size esize : Nat) (valid : Bool) (ok : Nat → Bool)
    (ev : List mem_event) (h : stack_create size esize valid ok = .returned none ev) :
    live_resources ev = [] := by
  rcases stack_create_cases size esize valid ok with h1 | h1 | h1 | h1 | h1 <;>
    rw [h1] at h <;> simp at h <;> subst h <;> decide

theorem queue_create_valid_eq (size esize : Nat) (ok : Nat → Bool) (he : esize ≠ 0) :
    queue_create size esize true ok =
      if ok 0 = false then .returned none []
      else if ok 1 = false then
        .returned none [.acquire .handle_block, .release .handle_block]
      else if ok 2 = false then
        .returned none [.acquire .handle_block, .acquire .storage,
          .release .storage, .release .handle_block]
      else
        .returned (some { container := { strategy := .CONTAINER_LINKED_LIST_BASED,
                                         esize := esize, elems := [] },
                          meta := { capacity := size } })
          [.acquire .handle_block, .acquire .storage, .acquire .meta_block] := by
  unfold queue_create container_create
  cases h0 : ok 0 <;> cases h1 : ok 1 <;> cases h2 : ok 2 <;> simp [he]

theorem stack_create_valid_eq (size esize : Nat) (ok : Nat → Bool) (he : esize ≠ 0) :
    stack_create size esize true ok =
      if ok 0 = false then .returned none []
      else if ok 1 = false then
        .returned none [.acquire .handle_block, .release .handle_block]
      else if ok 2 = false then
        .returned none [.acquire .handle_block, .acquire .storage,
          .release .storage, .release .handle_block]
      else
        .returned (some { container := { strategy := .CONTAINER_VECTOR_BASED,
                                         esize := esize, elems := [] },
                          meta := { capacity := size } })
          [.acquire .handle_block, .acquire .storage, .acquire .meta_block] := by
  unfold stack_create container_create
  cases h0 : ok 0 <;> cases h1 : ok 1 <;> cases h2 : ok 2 <;> simp [he]

theorem queue_create_step_fails (size esize : Nat) (ok : Nat → Bool) (he : esize ≠ 0)
    (hf : ok 0 = false ∨ ok 1 = false ∨ ok 2 = false) :
    ∃ ev, queue_create size esize true ok = .returned none ev := by
  rw [queue_create_valid_eq size esize ok he]
  split_ifs with h0 h1 h2
  · exact ⟨_, rfl⟩
  · exact ⟨_, rfl⟩
  · exact ⟨_, rfl⟩
  · rcases hf with hf | hf | hf <;> contradiction

theorem stack_create_step_fails (size esize : Nat) (ok : Nat → Bool) (he : esize ≠ 0)
    (hf : ok 0 = false ∨ ok 1 = false ∨ ok 2 = false) :
    ∃ ev, stack_create size esize true ok = .returned none ev := by
  rw [stack_create_valid_eq size esize ok he]
  split_ifs with h0 h1 h2
  · exact ⟨_, rfl⟩
  · exact ⟨_, rfl⟩
  · exact ⟨_, rfl⟩
  · rcases hf with hf | hf | hf <;> contradiction

theorem queue_create_some_owns (size esize : Nat) (valid : Bool) (ok : Nat → Bool)
    (q : queue_t) (ev : List mem_event)
    (h : queue_create size esize valid ok = .returned (some q) ev) :
    live_resources ev = [.handle_block, .storage, .meta_block] ∧ q.meta.capacity = size ∧
      q.container.elems = [] := by
  rcases queue_create_cases size esize valid ok with h1 | h1 | h1 | h1 | h1 <;>
    rw [h1] at h <;> simp at h
  obtain ⟨hq, hev⟩ := h
  subst hq hev
  exact ⟨by decide, rfl, rfl⟩

theorem stack_create_some_owns (size esize : Nat) (valid : Bool) (ok : Nat → Bool)
    (s : stack_t) (ev : List mem_event)
    (h : stack_create size esize valid ok = .returned (some s) ev) :
    live_resources ev = [.handle_block, .storage, .meta_block] ∧ s.meta.capacity = size ∧
      s.container.elems = [] := by
  rcases stack_create_cases size esize valid ok with h1 | h1 | h1 | h1 | h1 <;>
    rw [h1] at h <;> simp at h
  obtain ⟨hs, hev⟩ := h
  subst hs hev
  exact ⟨by decide, rfl, rfl⟩

/-- C30. `queue_create` and `stack_create` unwind on failure: whenever the call returns `NULL`
every resource acquired in it has been released again, and with a valid allocator and a
non-zero element size the failure of the handle allocation (step 0), of the container creation
(step 1) or of the meta block allocation (step 2) does make the call return `NULL`; whenever
the call returns a handle, exactly the handle block, one storage handle and one meta block are
held, and the capacity field equals the requested size. -/
theorem C30_create_unwinds_on_failure (size esize : Nat) (valid : Bool) (ok : Nat → Bool) :
    ((∀ ev, queue_create size esize valid ok = .returned none ev → live_resources ev = []) ∧
     (esize ≠ 0 → valid = true → (ok 0 = false ∨ ok 1 = false ∨ ok 2 = false) →
        ∃ ev, queue_create size esize valid ok = .returned none ev ∧ live_resources ev = []) ∧
     (∀ q ev, queue_create size esize valid ok = .returned (some q) ev →
        live_resources ev = [.handle_block, .storage, .meta_block] ∧
        q.meta.capacity = size)) ∧
    ((∀ ev, stack_create size esize valid ok = .returned none ev → live_resources ev = []) ∧
     (esize ≠ 0 → valid = true → (ok 0 = false ∨ ok 1 = false ∨ ok 2 = false) →
        ∃ ev, stack_create size esize valid ok = .returned none ev ∧ live_resources ev = []) ∧
     (∀ s ev, stack_create size esize valid ok = .returned (some s) ev →
        live_resources ev = [.handle_block, .storage, .meta_block] ∧
        s.meta.capacity = size)) := by
  refine ⟨⟨queue_create_null_unwound size esize valid ok, ?_, ?_⟩,
    ⟨stack_create_null_unwound size esize valid ok, ?_, ?_⟩⟩
  · intro he hv hf
    subst hv
    obtain ⟨ev, hev⟩ := queue_create_step_fails size esize ok he hf
    exact ⟨ev, hev, queue_create_null_unwound size esize true ok ev hev⟩
  · intro q ev h
    obtain ⟨h1, h2, -⟩ := queue_create_some_owns size esize valid ok q ev h
    exact ⟨h1, h2⟩
  · intro he hv hf
    subst hv
    obtain ⟨ev, hev⟩ := stack_create_step_fails size esize ok he hf
    exact ⟨ev, hev, stack_create_null_unwound size esize true ok ev hev⟩
  · intro s ev h
    obtain ⟨h1, h2, -⟩ := stack_create_some_owns size esize valid ok s ev h
    exact ⟨h1, h2⟩

theorem C30_create_unwinds_on_failure_witness :
    (4 ≠ 0 ∧ true = true ∧
      (alloc_fails_at 2 0 = false ∨ alloc_fails_at 2 1 = false ∨ alloc_fails_at 2 2 = false) ∧
      ∃ ev, queue_create 10 4 true (alloc_fails_at 2) = .returned none ev ∧
        live_resources ev = []) ∧
    (queue_create 10 4 true alloc_always
        = .returned (some { sample_queue with meta := { capacity := 10 } })
            [.acquire .handle_block, .acquire .storage, .acquire .meta_block] ∧
      live_resources [.acquire .handle_block, .acquire .storage, .acquire .meta_block]
        = [.handle_block, .storage, .meta_block] ∧
      ({ sample_queue with meta := { capacity := 10 } } : queue_t).meta.capacity = 10) :=
  ⟨⟨by decide, rfl, by decide,
      (C30_create_unwinds_on_failure 10 4 true (alloc_fails_at 2)).1.2.1
        (by decide) rfl (by decide)⟩,
    ⟨rfl,
      ((C30_create_unwinds_on_failure 10 4 true alloc_always).1.2.2 _ _ rfl).1,
      ((C30_create_unwinds_on_failure 10 4 true alloc_always).1.2.2
        { sample_queue with meta := { capacity := 10 } } _ rfl).2⟩⟩

/-! ## Theorems: ring buffer transitions, initial state, invariants -/

/-- C33. Initial ring buffer state: whenever `rb_create M e` returns a handle, `M ≥ 1` and
`e ≥ 1`, `head = 0`, `tail = 0`, `max_size = M`, and the storage holds exactly `M` elements, each
consisting of `e` zero bytes; consequently `rb_is_empty` is true and `rb_size` is 0. -/
theorem C33_rb_initial_state (M e : Nat) (valid : Bool) (ok : Nat → Bool) (rb : ring_buffer_t)
    (ev : List mem_event)
    (hcreate : rb_create M e valid ok = .returned (some rb) ev) :
    1 ≤ M ∧ 1 ≤ e ∧
    rb.meta.head = 0 ∧ rb.meta.tail = 0 ∧ rb.meta.max_size = M ∧
    rb.container.elems.length = M ∧
    rb.container.elems = List.replicate M (List.replicate e 0) ∧
    (∀ x ∈ rb.container.elems, x.length = e ∧ ∀ byte ∈ x, byte = 0) ∧
    rb_is_empty rb = true ∧ rb_size rb = 0 := by
  obtain ⟨hrb, hM, he⟩ := rb_create_some M e valid ok rb ev hcreate
  subst hrb
  have hz := rb_abs_diff_eq_cursors (rb_fresh M e) rfl
  refine ⟨by omega, by omega, rfl, rfl, rfl, ?_, rfl, ?_, rb_is_empty_eq_cursors _ rfl, ?_⟩
  · simp only [rb_fresh, List.length_replicate]
  · intro x hx
    simp only [rb_fresh] at hx
    rw [List.eq_of_mem_replicate hx]
    refine ⟨List.length_replicate _ _, ?_⟩
    intro byte hb
    exact List.eq_of_mem_replicate hb
  · unfold rb_size
    rw [hz]
    decide

theorem C33_rb_initial_state_witness :
    rb_create 4 4 true alloc_always
      = .returned (some (rb_fresh 4 4))
          [.acquire .handle_block, .acquire .scratch_block, .acquire .storage,
            .acquire .meta_block] ∧
    (1 ≤ 4 ∧ 1 ≤ 4 ∧
     (rb_fresh 4 4).meta.head = 0 ∧ (rb_fresh 4 4).meta.tail = 0 ∧
     (rb_fresh 4 4).meta.max_size = 4 ∧
     (rb_fresh 4 4).container.elems.length = 4 ∧
     (rb_fresh 4 4).container.elems = List.replicate 4 (List.replicate 4 0) ∧
     (∀ x ∈ (rb_fresh 4 4).container.elems, x.length = 4 ∧ ∀ byte ∈ x, byte = 0) ∧
     rb_is_empty (rb_fresh 4 4) = true ∧ rb_size (rb_fresh 4 4) = 0) :=
  ⟨rfl, C33_rb_initial_state 4 4 true alloc_always (rb_fresh 4 4) _ rfl⟩

/-- C34 (counterexample). With `max_size = 2 ^ 32 + 1`, `head = 2 ^ 32` and `tail = 0` both
cursors are below `max_size` and differ, yet `rb_is_empty` returns true: the `size_t`
difference `tail - head` is `2 ^ 64 - 2 ^ 32`, whose conversion to `int` is 0. -/
theorem C34_rb_empty_with_distinct_cursors :
    (2 ^ 32 : Nat) < 2 ^ 32 + 1 ∧ (0 : Nat) < 2 ^ 32 + 1 ∧ (2 ^ 32 : Nat) ≠ 0 ∧
    rb_is_empty
      { container := { strategy := .CONTAINER_VECTOR_BASED, esize := 1, elems := [] },
        meta := { tail := 0, head := 2 ^ 32, max_size := 2 ^ 32 + 1 } } = true := by
  refine ⟨by omega, by omega, by omega, ?_⟩
  rw [rb_is_empty_iff_mod]
  show (2 ^ 32 : Nat) % 2 ^ 32 = 0 % 2 ^ 32
  omega

/-- C34 (amended). Emptiness is cursor equality while the cursors fit in 32 bits: for every
pair of cursors `head, tail < max_size` with `max_size ≤ 2 ^ 32`, `rb_is_empty` returns true
exactly when `head = tail`. -/
theorem C34_rb_empty_iff_cursors_equal (rb : ring_buffer_t)
    (hh : rb.meta.head < rb.meta.max_size) (ht : rb.meta.tail < rb.meta.max_size)
    (hM : rb.meta.max_size ≤ 2 ^ 32) :
    rb_is_empty rb = true ↔ rb.meta.head = rb.meta.tail := by
  rw [rb_is_empty_iff_mod rb]
  omega

theorem C34_rb_empty_iff_cursors_equal_witness :
    sample_rb.meta.head < sample_rb.meta.max_size ∧
    sample_rb.meta.tail < sample_rb.meta.max_size ∧
    sample_rb.meta.max_size ≤ 2 ^ 32 ∧
    (rb_is_empty sample_rb = true ↔ sample_rb.meta.head = sample_rb.meta.tail) :=
  ⟨by decide, by decide, by decide,
    C34_rb_empty_iff_cursors_equal sample_rb (by decide) (by decide) (by decide)⟩

theorem rb_size_near (rb : ring_buffer_t) (hh : rb.meta.head < 2 ^ 31)
    (ht : rb.meta.tail < 2 ^ 31) :
    rb_size rb = if rb.meta.head ≤ rb.meta.tail then rb.meta.tail - rb.meta.head
      else rb.meta.head - rb.meta.tail := by
  have hd := abs_diff_near rb.meta.tail rb.meta.head (by omega) (by omega) (by omega) (by omega)
  unfold rb_size rb_abs_diff
  rw [hd]
  unfold int_to_size_t
  simp only [Int.ofNat_eq_coe]
  split_ifs <;> omega

/-- C38. Exact value of `rb_size`: for every ring buffer state with
`head, tail < max_size ≤ 2 ^ 31 - 1`, `rb_size` returns the absolute difference of the cursors,
and this value equals the modular distance `(head - tail + max_size) mod max_size` if and only
if `tail ≤ head` or `2 * (tail - head) = max_size`. -/
theorem C38_rb_size_exact (rb : ring_buffer_t)
    (hh : rb.meta.head < rb.meta.max_size) (ht : rb.meta.tail < rb.meta.max_size)
    (hM : rb.meta.max_size ≤ 2 ^ 31 - 1) :
    rb_size rb = (if rb.meta.head ≤ rb.meta.tail then rb.meta.tail - rb.meta.head
      else rb.meta.head - rb.meta.tail) ∧
    (rb_size rb = rb_modular_distance rb ↔
      (rb.meta.tail ≤ rb.meta.head ∨ 2 * (rb.meta.tail - rb.meta.head) = rb.meta.max_size)) := by
  have hs := rb_size_near rb (by omega) (by omega)
  refine ⟨hs, ?_⟩
  rw [hs]
  unfold rb_modular_distance
  by_cases hle : rb.meta.tail ≤ rb.meta.head
  · have hm : (rb.meta.head + rb.meta.max_size - rb.meta.tail) % rb.meta.max_size
        = rb.meta.head - rb.meta.tail := by
      have he : rb.meta.head + rb.meta.max_size - rb.meta.tail
          = (rb.meta.head - rb.meta.tail) + rb.meta.max_size := by omega
      rw [he, Nat.add_mod_right, Nat.mod_eq_of_lt (by omega)]
    rw [hm]
    constructor
    · intro _; exact Or.inl hle
    · intro _; split_ifs <;> omega
  · have hm : (rb.meta.head + rb.meta.max_size - rb.meta.tail) % rb.meta.max_size
        = rb.meta.head + rb.meta.max_size - rb.meta.tail := Nat.mod_eq_of_lt (by omega)
    rw [hm]
    constructor
    · intro h; right; split_ifs at h <;> omega
    · intro h; split_ifs <;> omega

theorem C38_rb_size_exact_witness :
    sample_rb.meta.head < sample_rb.meta.max_size ∧
    sample_rb.meta.tail < sample_rb.meta.max_size ∧
    sample_rb.meta.max_size ≤ 2 ^ 31 - 1 ∧
    (rb_size sample_rb = (if sample_rb.meta.head ≤ sample_rb.meta.tail
        then sample_rb.meta.tail - sample_rb.meta.head
        else sample_rb.meta.head - sample_rb.meta.tail) ∧
     (rb_size sample_rb = rb_modular_distance sample_rb ↔
       (sample_rb.meta.tail ≤ sample_rb.meta.head ∨
         2 * (sample_rb.meta.tail - sample_rb.meta.head) = sample_rb.meta.max_size))) :=
  ⟨by decide, by decide, by decide,
    C38_rb_size_exact sample_rb (by decide) (by decide) (by decide)⟩

theorem rb_next_cursor (c M : Nat) (hc : c < M) (hM : M < SIZE_T_MOD) :
    (c + 1) % SIZE_T_MOD % M = (c + 1) % M := by
  have h : (c + 1) % SIZE_T_MOD = c + 1 := Nat.mod_eq_of_lt (by omega)
  rw [h]

theorem rb_add_not_full (rb : ring_buffer_t) (v : Elem) (hfull : rb_is_full rb = false)
    (hh : rb.meta.head < rb.container.elems.length) :
    rb_add rb v
      = ({ container := { rb.container with elems := rb.container.elems.set rb.meta.head v },
           meta := { rb.meta with
             head := (rb.meta.head + 1) % SIZE_T_MOD % rb.meta.max_size } }, true) := by
  simp only [rb_add, hfull, Bool.false_eq_true, if_false, container_replace, hh, if_true,
    Bool.true_eq_false]

theorem rb_get_not_empty (rb : ring_buffer_t) (out x : Elem) (hne : rb_is_empty rb = false)
    (hx : rb.container.elems.get? rb.meta.tail = some x) :
    rb_get rb out
      = ({ rb with meta := { rb.meta with
             tail := (rb.meta.tail + 1) % SIZE_T_MOD % rb.meta.max_size } }, x, none) := by
  simp only [rb_get, hne, container_at, hx, Bool.false_eq_true, if_false, Bool.true_eq_false]

theorem rb_not_full_eq_cursors (rb : ring_buffer_t) (h : rb.meta.head = rb.meta.tail)
    (h2 : 2 ≤ rb.meta.max_size) (hM : rb.meta.max_size < SIZE_T_MOD) :
    rb_is_full rb = false := by
  have h0 : int_to_size_t 0 = 0 := by decide
  unfold rb_is_full
  rw [rb_abs_diff_eq_cursors rb h, h0, decide_eq_false_iff_not]
  unfold size_t_sub SIZE_T_MOD
  unfold SIZE_T_MOD at hM
  omega

theorem rb_not_empty_head_next (rb : ring_buffer_t) (h : rb.meta.head = rb.meta.tail + 1) :
    rb_is_empty rb = false := by
  cases hE : rb_is_empty rb with
  | false => rfl
  | true =>
    have hm := (rb_is_empty_iff_mod rb).1 hE
    omega

theorem rb_history_step_add_ok (h : rb_history) (v : Elem) (r : ring_buffer_t)
    (hadd : rb_add h.rb v = (r, true)) :
    rb_history_step h (.add v)
      = { rb := r, accepted := h.accepted ++ [v], delivered := h.delivered } := by
  rewrite [rb_history_step.eq_1, hadd]
  rfl

theorem rb_history_step_get_ok (h : rb_history) (out x : Elem) (r : ring_buffer_t)
    (hget : rb_get h.rb out = (r, x, none)) :
    rb_history_step h (.get out)
      = { rb := r, accepted := h.accepted, delivered := h.delivered ++ [x] } := by
  rewrite [rb_history_step.eq_2, hget]
  rfl

theorem rb_add_at_cursor (rb : ring_buffer_t) (v z : Elem) (pre post : List Elem)
    (hel : rb.container.elems = pre ++ z :: post)
    (hhead : rb.meta.head = pre.length) (htail : rb.meta.tail = pre.length)
    (hroom : pre.length + 1 < rb.meta.max_size) (hM : rb.meta.max_size < SIZE_T_MOD) :
    rb_add rb v
      = ({ container := { rb.container with elems := pre ++ v :: post },
           meta := { tail := pre.length, head := pre.length + 1,
                     max_size := rb.meta.max_size } }, true) := by
  have hfull : rb_is_full rb = false := rb_not_full_eq_cursors rb (by omega) (by omega) hM
  have hnext : (pre.length + 1) % SIZE_T_MOD % rb.meta.max_size = pre.length + 1 := by
    rw [rb_next_cursor _ _ (by omega) hM, Nat.mod_eq_of_lt hroom]
  rw [rb_add_not_full rb v hfull
    (by rw [hel, hhead, List.length_append, List.length_cons]; omega)]
  rw [hhead, hel, set_at_length, hnext]
  simp only [htail]

theorem rb_get_at_cursor (rb : ring_buffer_t) (out x : Elem) (pre post : List Elem)
    (hel : rb.container.elems = pre ++ x :: post)
    (hhead : rb.meta.head = pre.length + 1) (htail : rb.meta.tail = pre.length)
    (hroom : pre.length + 1 < rb.meta.max_size) (hM : rb.meta.max_size < SIZE_T_MOD) :
    rb_get rb out
      = ({ container := rb.container,
           meta := { tail := pre.length + 1, head := pre.length + 1,
                     max_size := rb.meta.max_size } }, x, none) := by
  have hne : rb_is_empty rb = false := rb_not_empty_head_next rb (by omega)
  have hx : rb.container.elems.get? rb.meta.tail = some x := by
    rw [hel, htail]
    exact get_at_length pre post x
  have hnext : (pre.length + 1) % SIZE_T_MOD % rb.meta.max_size = pre.length + 1 := by
    rw [rb_next_cursor _ _ (by omega) hM, Nat.mod_eq_of_lt hroom]
  rw [rb_get_not_empty rb out x hne hx, htail, hnext]
  simp only [hhead]

theorem rb_history_add_get (h : rb_history) (v out z : Elem) (pre post : List Elem)
    (hel : h.rb.container.elems = pre ++ z :: post)
    (hhead : h.rb.meta.head = pre.length) (htail : h.rb.meta.tail = pre.length)
    (hroom : pre.length + 1 < h.rb.meta.max_size) (hM : h.rb.meta.max_size < SIZE_T_MOD) :
    rb_history_step (rb_history_step h (.add v)) (.get out)
      = { rb := { container := { h.rb.container with elems := pre ++ v :: post },
                  meta := { tail := pre.length + 1, head := pre.length + 1,
                            max_size := h.rb.meta.max_size } },
          accepted := h.accepted ++ [v], delivered := h.delivered ++ [v] } := by
  rewrite [rb_history_step_add_ok h v _
    (rb_add_at_cursor h.rb v z pre post hel hhead htail hroom hM)]
  exact rb_history_step_get_ok
    { rb := { container := { h.rb.container with elems := pre ++ v :: post },
              meta := { tail := pre.length, head := pre.length + 1,
                        max_size := h.rb.meta.max_size } },
      accepted := h.accepted ++ [v], delivered := h.delivered } out v _
    (rb_get_at_cursor _ out v pre post rfl rfl rfl hroom hM)

theorem foldl_append_two {α β : Type} (f : β → α → β) (b : β) (l : List α) (x y : α) :
    (l ++ [x, y]).foldl f b = f (f (l.foldl f b) x) y := by
  rw [List.foldl_append, List.foldl_cons, List.foldl_cons, List.foldl_nil]

theorem rb_fresh_add_get_run (M e : Nat) (v out : Elem) (hM : M < SIZE_T_MOD) :
    ∀ n : Nat, n < M →
    rb_history_run (rb_fresh M e) (rb_add_get_ops v out n)
      = { rb := { container := { strategy := .CONTAINER_VECTOR_BASED, esize := e,
                                 elems := List.replicate n v
                                   ++ List.replicate (M - n) (List.replicate e 0) },
                  meta := { tail := n, head := n, max_size := M } },
          accepted := List.replicate n v, delivered := List.replicate n v } := by
  intro n
  induction n with
  | zero =>
    intro _
    simp [rb_history_run, rb_add_get_ops, rb_fresh]
  | succ n ih =>
    intro hn
    have hrun : rb_history_run (rb_fresh M e) (rb_add_get_ops v out (n + 1))
        = rb_history_step (rb_history_step
            (rb_history_run (rb_fresh M e) (rb_add_get_ops v out n)) (.add v)) (.get out) := by
      unfold rb_history_run
      rewrite [rb_add_get_ops]
      exact foldl_append_two rb_history_step _ _ _ _
    have hsplit : List.replicate (M - n) (List.replicate e 0)
        = List.replicate e 0 :: List.replicate (M - (n + 1)) (List.replicate e 0) := by
      have hk : M - n = (M - (n + 1)) + 1 := by omega
      rw [hk, List.replicate_succ]
    have hlen : (List.replicate n v).length = n := List.length_replicate _ _
    rw [hrun, ih (by omega), hsplit]
    rw [rb_history_add_get _ v out (List.replicate e 0) (List.replicate n v)
      (List.replicate (M - (n + 1)) (List.replicate e 0)) rfl hlen.symm hlen.symm
      (by rw [hlen]; exact hn) hM]
    simp only [hlen, List.replicate_succ', List.append_assoc, List.singleton_append]

theorem foldl_append_one {α β : Type} (f : β → α → β) (b : β) (l : List α) (x : α) :
    (l ++ [x]).foldl f b = f (l.foldl f b) x := by
  rw [List.foldl_append, List.foldl_cons, List.foldl_nil]

theorem rb_add_at_last (rb : ring_buffer_t) (v z : Elem) (pre : List Elem)
    (hel : rb.container.elems = pre ++ [z])
    (hhead : rb.meta.head = pre.length) (htail : rb.meta.tail = pre.length)
    (hmax : rb.meta.max_size = pre.length + 1) (hpos : 0 < pre.length)
    (hM : rb.meta.max_size < SIZE_T_MOD) :
    rb_add rb v
      = ({ container := { rb.container with elems := pre ++ [v] },
           meta := { tail := pre.length, head := 0, max_size := pre.length + 1 } }, true) := by
  have hfull : rb_is_full rb = false := rb_not_full_eq_cursors rb (by omega) (by omega) hM
  have hnext : (pre.length + 1) % SIZE_T_MOD % rb.meta.max_size = 0 := by
    have h1 : (pre.length + 1) % SIZE_T_MOD = pre.length + 1 := Nat.mod_eq_of_lt (by omega)
    rw [h1, hmax, Nat.mod_self]
  rw [rb_add_not_full rb v hfull
    (by rw [hel, hhead, List.length_append, List.length_singleton]; omega)]
  rw [hhead, hel, set_at_length, hnext]
  simp only [htail, hmax]

theorem rb_add_get_wrap (e n : Nat) (v out : Elem) (hpos : 0 < n)
    (hM : n + 1 < SIZE_T_MOD) :
    rb_history_run (rb_fresh (n + 1) e) (rb_add_get_ops v out n ++ [.add v])
      = { rb := { container := { strategy := .CONTAINER_VECTOR_BASED, esize := e,
                                 elems := List.replicate n v ++ [v] },
                  meta := { tail := n, head := 0, max_size := n + 1 } },
          accepted := List.replicate n v ++ [v], delivered := List.replicate n v } := by
  have hrun : rb_history_run (rb_fresh (n + 1) e) (rb_add_get_ops v out n ++ [.add v])
      = rb_history_step (rb_history_run (rb_fresh (n + 1) e) (rb_add_get_ops v out n))
          (.add v) := by
    unfold rb_history_run
    exact foldl_append_one rb_history_step _ _ _
  have hlen : (List.replicate n v).length = n := List.length_replicate _ _
  have hone : List.replicate (n + 1 - n) (List.replicate e 0) = [List.replicate e 0] := by
    rw [Nat.add_sub_cancel_left]
    rfl
  rw [hrun, rb_fresh_add_get_run (n + 1) e v out hM n (by omega), hone]
  rw [rb_history_step_add_ok _ v _
    (rb_add_at_last _ v (List.replicate e 0) (List.replicate n v) rfl hlen.symm hlen.symm
      (by rw [hlen]) (by rw [hlen]; exact hpos) hM)]
  simp only [hlen]

theorem rb_add_get_wrap_refused (e n : Nat) (v out probe : Elem) (hpos : 0 < n)
    (hM : n + 1 < SIZE_T_MOD) (hn : n % 2 ^ 32 = 0) :
    (rb_history_run (rb_fresh (n + 1) e) (rb_add_get_ops v out n ++ [.add v])).accepted.length
      = n + 1 ∧
    (rb_history_run (rb_fresh (n + 1) e) (rb_add_get_ops v out n ++ [.add v])).delivered.length
      = n ∧
    rb_held (rb_history_run (rb_fresh (n + 1) e) (rb_add_get_ops v out n ++ [.add v])) = 1 ∧
    (rb_history_run (rb_fresh (n + 1) e) (rb_add_get_ops v out n ++ [.add v])).rb.meta.head
      = 0 ∧
    (rb_history_run (rb_fresh (n + 1) e) (rb_add_get_ops v out n ++ [.add v])).rb.meta.tail
      = n ∧
    (rb_history_run (rb_fresh (n + 1) e) (rb_add_get_ops v out n ++ [.add v])).rb.meta.max_size
      = n + 1 ∧
    (rb_history_run (rb_fresh (n + 1) e)
      (rb_add_get_ops v out n ++ [.add v])).rb.container.elems.length = n + 1 ∧
    rb_is_empty (rb_history_run (rb_fresh (n + 1) e)
      (rb_add_get_ops v out n ++ [.add v])).rb = true ∧
    rb_peek (rb_history_run (rb_fresh (n + 1) e) (rb_add_get_ops v out n ++ [.add v])).rb probe
      = (probe, false) ∧
    rb_get (rb_history_run (rb_fresh (n + 1) e) (rb_add_get_ops v out n ++ [.add v])).rb probe
      = ((rb_history_run (rb_fresh (n + 1) e) (rb_add_get_ops v out n ++ [.add v])).rb,
          probe, some false) := by
  have hrun := rb_add_get_wrap e n v out hpos hM
  generalize rb_history_run (rb_fresh (n + 1) e) (rb_add_get_ops v out n ++ [.add v]) = H
    at hrun
  subst hrun
  have hacc : (List.replicate n v ++ [v]).length = n + 1 := by
    rw [List.length_append, List.length_replicate, List.length_singleton]
  have hdel : (List.replicate n v).length = n := List.length_replicate _ _
  have hempty : rb_is_empty
      { container := { strategy := .CONTAINER_VECTOR_BASED, esize := e,
                       elems := List.replicate n v ++ [v] },
        meta := { tail := n, head := 0, max_size := n + 1 } } = true := by
    rw [rb_is_empty_iff_mod]
    show 0 % 2 ^ 32 = n % 2 ^ 32
    omega
  refine ⟨hacc, hdel, ?_, rfl, rfl, rfl, hacc, hempty, ?_, ?_⟩
  · unfold rb_held
    show (List.replicate n v ++ [v]).length - (List.replicate n v).length = 1
    rw [hacc, hdel]
    omega
  · simp only [rb_peek, hempty, if_true]
  · simp only [rb_get, hempty, if_true]

/-- C14 (counterexample). On a ring buffer created with `max_size = 2 ^ 32 + 1`, after
`2 ^ 32` rounds of `rb_add` followed by `rb_get` and one more `rb_add`, every call successful,
one element is held (`2 ^ 32 + 1` adds against `2 ^ 32` gets), `head = 0` and `tail = 2 ^ 32`;
the `size_t` difference `tail - head` is `2 ^ 32`, whose conversion to `int` is 0, so
`rb_peek` returns false and leaves the output as it was. -/
theorem C14_rb_peek_refused_with_element_held :
    rb_create (2 ^ 32 + 1) 1 true alloc_always
      = .returned (some (rb_fresh (2 ^ 32 + 1) 1))
          [.acquire .handle_block, .acquire .scratch_block, .acquire .storage,
            .acquire .meta_block] ∧
    (rb_history_run (rb_fresh (2 ^ 32 + 1) 1)
      (rb_add_get_ops [7] [0] (2 ^ 32) ++ [.add [7]])).accepted.length = 2 ^ 32 + 1 ∧
    (rb_history_run (rb_fresh (2 ^ 32 + 1) 1)
      (rb_add_get_ops [7] [0] (2 ^ 32) ++ [.add [7]])).delivered.length = 2 ^ 32 ∧
    rb_held (rb_history_run (rb_fresh (2 ^ 32 + 1) 1)
      (rb_add_get_ops [7] [0] (2 ^ 32) ++ [.add [7]])) = 1 ∧
    (rb_history_run (rb_fresh (2 ^ 32 + 1) 1)
      (rb_add_get_ops [7] [0] (2 ^ 32) ++ [.add [7]])).rb.meta.head = 0 ∧
    (rb_history_run (rb_fresh (2 ^ 32 + 1) 1)
      (rb_add_get_ops [7] [0] (2 ^ 32) ++ [.add [7]])).rb.meta.tail = 2 ^ 32 ∧
    (rb_history_run (rb_fresh (2 ^ 32 + 1) 1)
      (rb_add_get_ops [7] [0] (2 ^ 32) ++ [.add [7]])).rb.meta.max_size = 2 ^ 32 + 1 ∧
    (rb_history_run (rb_fresh (2 ^ 32 + 1) 1)
      (rb_add_get_ops [7] [0] (2 ^ 32) ++ [.add [7]])).rb.container.elems.length = 2 ^ 32 + 1 ∧
    rb_peek (rb_history_run (rb_fresh (2 ^ 32 + 1) 1)
      (rb_add_get_ops [7] [0] (2 ^ 32) ++ [.add [7]])).rb [0] = ([0], false) := by
  have h := rb_add_get_wrap_refused 1 (2 ^ 32) [7] [0] [0] (by omega)
    (by unfold SIZE_T_MOD; omega) (Nat.mod_self _)
  exact ⟨rb_create_ok _ _ _ (by omega) (by omega) (fun _ => rfl), h.1, h.2.1, h.2.2.1,
    h.2.2.2.1, h.2.2.2.2.1, h.2.2.2.2.2.1, h.2.2.2.2.2.2.1, h.2.2.2.2.2.2.2.2.1⟩

/-- C31. `rb_add` as a state transition: for every ring buffer state with
`head, tail < max_size`, a storage of `max_size` slots and `max_size` a `size_t` value: if
`rb_is_full` then `rb_add` returns false and changes nothing; otherwise it returns true, the
slot at index `head` holds the supplied element, `head` becomes `(head + 1) mod max_size`, and
`tail`, `max_size`, the number of slots and every slot other than the old `head` are
unchanged. -/
theorem C31_rb_add_transition (rb : ring_buffer_t) (v : Elem)
    (hh : rb.meta.head < rb.meta.max_size) (_ht : rb.meta.tail < rb.meta.max_size)
    (hslots : rb.container.elems.length = rb.meta.max_size)
    (hM : rb.meta.max_size < SIZE_T_MOD) :
    (rb_is_full rb = true → rb_add rb v = (rb, false)) ∧
    (rb_is_full rb = false →
      (rb_add rb v).2 = true ∧
      (rb_add rb v).1.container.elems = rb.container.elems.set rb.meta.head v ∧
      (rb_add rb v).1.container.elems.get? rb.meta.head = some v ∧
      (rb_add rb v).1.meta.head = (rb.meta.head + 1) % rb.meta.max_size ∧
      (rb_add rb v).1.meta.tail = rb.meta.tail ∧
      (rb_add rb v).1.meta.max_size = rb.meta.max_size ∧
      (rb_add rb v).1.container.elems.length = rb.container.elems.length ∧
      (∀ i : Nat, i ≠ rb.meta.head →
        (rb_add rb v).1.container.elems.get? i = rb.container.elems.get? i)) := by
  refine ⟨fun hfull => rb_add_refused rb v hfull, ?_⟩
  intro hfull
  rw [rb_add_not_full rb v hfull (by omega)]
  refine ⟨rfl, rfl, ?_, rb_next_cursor _ _ hh hM, rfl, rfl, ?_, ?_⟩
  · show (rb.container.elems.set rb.meta.head v).get? rb.meta.head = some v
    rw [List.get?_eq_getElem?, List.getElem?_set_self (by omega)]
  · show (rb.container.elems.set rb.meta.head v).length = rb.container.elems.length
    exact List.length_set _ _ _
  · intro i hi
    show (rb.container.elems.set rb.meta.head v).get? i = rb.container.elems.get? i
    rw [List.get?_eq_getElem?, List.get?_eq_getElem?, List.getElem?_set_ne (Ne.symm hi)]

theorem C31_rb_add_transition_witness :
    sample_rb.meta.head < sample_rb.meta.max_size ∧
    sample_rb.meta.tail < sample_rb.meta.max_size ∧
    sample_rb.container.elems.length = sample_rb.meta.max_size ∧
    sample_rb.meta.max_size < SIZE_T_MOD ∧
    rb_is_full sample_rb = false ∧
    ((rb_is_full sample_rb = true → rb_add sample_rb [8] = (sample_rb, false)) ∧
     (rb_is_full sample_rb = false →
      (rb_add sample_rb [8]).2 = true ∧
      (rb_add sample_rb [8]).1.container.elems
        = sample_rb.container.elems.set sample_rb.meta.head [8] ∧
      (rb_add sample_rb [8]).1.container.elems.get? sample_rb.meta.head = some [8] ∧
      (rb_add sample_rb [8]).1.meta.head = (sample_rb.meta.head + 1) % sample_rb.meta.max_size ∧
      (rb_add sample_rb [8]).1.meta.tail = sample_rb.meta.tail ∧
      (rb_add sample_rb [8]).1.meta.max_size = sample_rb.meta.max_size ∧
      (rb_add sample_rb [8]).1.container.elems.length = sample_rb.container.elems.length ∧
      (∀ i : Nat, i ≠ sample_rb.meta.head →
        (rb_add sample_rb [8]).1.container.elems.get? i = sample_rb.container.elems.get? i))) :=
  ⟨by decide, by decide, by decide, by decide, by decide,
    C31_rb_add_transition sample_rb [8] (by decide) (by decide) (by decide) (by decide)⟩

/-- C32 (counterexample). The state reached on a ring buffer created with
`max_size = 2 ^ 32 + 1` by `2 ^ 32` rounds of `rb_add` followed by `rb_get` and one more
`rb_add` has `head = 0` and `tail = 2 ^ 32`, both below `max_size`, and `max_size` slots; its
cursors differ and it holds one element, yet `rb_get` returns false, writes nothing to the
output and does not advance `tail`. -/
theorem C32_rb_get_refused_with_distinct_cursors :
    rb_create (2 ^ 32 + 1) 1 true alloc_always
      = .returned (some (rb_fresh (2 ^ 32 + 1) 1))
          [.acquire .handle_block, .acquire .scratch_block, .acquire .storage,
            .acquire .meta_block] ∧
    rb_held (rb_history_run (rb_fresh (2 ^ 32 + 1) 1)
      (rb_add_get_ops [5] [0] (2 ^ 32) ++ [.add [5]])) = 1 ∧
    (rb_history_run (rb_fresh (2 ^ 32 + 1) 1)
      (rb_add_get_ops [5] [0] (2 ^ 32) ++ [.add [5]])).rb.meta.head = 0 ∧
    (rb_history_run (rb_fresh (2 ^ 32 + 1) 1)
      (rb_add_get_ops [5] [0] (2 ^ 32) ++ [.add [5]])).rb.meta.tail = 2 ^ 32 ∧
    (rb_history_run (rb_fresh (2 ^ 32 + 1) 1)
      (rb_add_get_ops [5] [0] (2 ^ 32) ++ [.add [5]])).rb.meta.max_size = 2 ^ 32 + 1 ∧
    (rb_history_run (rb_fresh (2 ^ 32 + 1) 1)
      (rb_add_get_ops [5] [0] (2 ^ 32) ++ [.add [5]])).rb.container.elems.length = 2 ^ 32 + 1 ∧
    (0 : Nat) ≠ 2 ^ 32 ∧ (0 : Nat) < 2 ^ 32 + 1 ∧ (2 ^ 32 : Nat) < 2 ^ 32 + 1 ∧
    rb_get (rb_history_run (rb_fresh (2 ^ 32 + 1) 1)
      (rb_add_get_ops [5] [0] (2 ^ 32) ++ [.add [5]])).rb [0]
      = ((rb_history_run (rb_fresh (2 ^ 32 + 1) 1)
      (rb_add_get_ops [5] [0] (2 ^ 32) ++ [.add [5]])).rb, [0], some false) := by
  have h := rb_add_get_wrap_refused 1 (2 ^ 32) [5] [0] [0] (by omega)
    (by unfold SIZE_T_MOD; omega) (Nat.mod_self _)
  exact ⟨rb_create_ok _ _ _ (by omega) (by omega) (fun _ => rfl), h.2.2.1, h.2.2.2.1,
    h.2.2.2.2.1, h.2.2.2.2.2.1, h.2.2.2.2.2.2.1, by omega, by omega, by omega,
    h.2.2.2.2.2.2.2.2.2⟩

/-- C32 (amended). `rb_get` as a state transition while the cursors fit in 32 bits: for every
ring buffer state whose cursors differ (`head ≠ tail`), with `head, tail < max_size ≤ 2 ^ 32`
and a storage of `max_size` slots, `rb_get` is not refused, writes the slot at index `tail` to
the output, sets `tail` to `(tail + 1) mod max_size`, and leaves `head`, `max_size` and every
stored slot, the one just read included, unchanged. -/
theorem C32_rb_get_transition (rb : ring_buffer_t) (out : Elem)
    (hcur : rb.meta.head ≠ rb.meta.tail)
    (hh : rb.meta.head < rb.meta.max_size) (ht : rb.meta.tail < rb.meta.max_size)
    (hslots : rb.container.elems.length = rb.meta.max_size)
    (hM : rb.meta.max_size ≤ 2 ^ 32) :
    (rb_get rb out).2.2 ≠ some false ∧
    rb.container.elems.get? rb.meta.tail = some (rb_get rb out).2.1 ∧
    (rb_get rb out).1.meta.tail = (rb.meta.tail + 1) % rb.meta.max_size ∧
    (rb_get rb out).1.meta.head = rb.meta.head ∧
    (rb_get rb out).1.meta.max_size = rb.meta.max_size ∧
    (rb_get rb out).1.container = rb.container := by
  have hne : rb_is_empty rb = false := by
    cases hE : rb_is_empty rb with
    | false => rfl
    | true =>
      have hm := (rb_is_empty_iff_mod rb).1 hE
      omega
  have hM64 : rb.meta.max_size < SIZE_T_MOD := by
    unfold SIZE_T_MOD
    omega
  obtain ⟨x, hx⟩ := get_lt_length rb.container.elems rb.meta.tail (by omega)
  rw [rb_get_not_empty rb out x hne hx]
  exact ⟨by simp, hx, rb_next_cursor _ _ ht hM64, rfl, rfl, rfl⟩

theorem C32_rb_get_transition_witness :
    sample_rb.meta.head ≠ sample_rb.meta.tail ∧
    sample_rb.meta.head < sample_rb.meta.max_size ∧
    sample_rb.meta.tail < sample_rb.meta.max_size ∧
    sample_rb.container.elems.length = sample_rb.meta.max_size ∧
    sample_rb.meta.max_size ≤ 2 ^ 32 ∧
    ((rb_get sample_rb [0]).2.2 ≠ some false ∧
     sample_rb.container.elems.get? sample_rb.meta.tail = some (rb_get sample_rb [0]).2.1 ∧
     (rb_get sample_rb [0]).1.meta.tail = (sample_rb.meta.tail + 1) % sample_rb.meta.max_size ∧
     (rb_get sample_rb [0]).1.meta.head = sample_rb.meta.head ∧
     (rb_get sample_rb [0]).1.meta.max_size = sample_rb.meta.max_size ∧
     (rb_get sample_rb [0]).1.container = sample_rb.container) :=
  ⟨by decide, by decide, by decide, by decide, by decide,
    C32_rb_get_transition sample_rb [0] (by decide) (by decide) (by decide) (by decide)
      (by decide)⟩

theorem rb_op_match_add {α : Type} (a : Elem) (h1 h2 h3 : Elem → α) (h4 : α) :
    (match rb_op.add a with
      | .add d => h1 d
      | .get o => h2 o
      | .peek o => h3 o
      | .clear => h4) = h1 a := rfl

theorem rb_op_match_get {α : Type} (a : Elem) (h1 h2 h3 : Elem → α) (h4 : α) :
    (match rb_op.get a with
      | .add d => h1 d
      | .get o => h2 o
      | .peek o => h3 o
      | .clear => h4) = h2 a := rfl

theorem rb_step_add (rb : ring_buffer_t) (v : Elem) : rb_step rb (.add v) = (rb_add rb v).1 := by
  rewrite [rb_step.eq_def]
  exact rb_op_match_add v (fun d => (rb_add rb d).1) (fun o => (rb_get rb o).1) (fun _ => rb)
    (rb_clear rb).1

theorem rb_step_get (rb : ring_buffer_t) (out : Elem) :
    rb_step rb (.get out) = (rb_get rb out).1 := by
  rewrite [rb_step.eq_def]
  exact rb_op_match_get out (fun d => (rb_add rb d).1) (fun o => (rb_get rb o).1) (fun _ => rb)
    (rb_clear rb).1

theorem rb_step_keeps_bounds (rb : ring_buffer_t) (op : rb_op)
    (hslots : rb.container.elems.length = rb.meta.max_size)
    (hh : rb.meta.head < rb.meta.max_size) (ht : rb.meta.tail < rb.meta.max_size) :
    (rb_step rb op).meta.max_size = rb.meta.max_size ∧
    (rb_step rb op).container.elems.length = rb.meta.max_size ∧
    (rb_step rb op).meta.head < rb.meta.max_size ∧
    (rb_step rb op).meta.tail < rb.meta.max_size := by
  have hpos : 0 < rb.meta.max_size := by omega
  cases op with
  | add v =>
    rw [rb_step_add]
    cases hfull : rb_is_full rb with
    | true =>
      rw [rb_add_refused rb v hfull]
      exact ⟨rfl, hslots, hh, ht⟩
    | false =>
      rw [rb_add_not_full rb v hfull (by omega)]
      refine ⟨rfl, ?_, ?_, ht⟩
      · show (rb.container.elems.set rb.meta.head v).length = rb.meta.max_size
        rw [List.length_set, hslots]
      · show (rb.meta.head + 1) % SIZE_T_MOD % rb.meta.max_size < rb.meta.max_size
        exact Nat.mod_lt _ hpos
  | get out =>
    rw [rb_step_get]
    cases hne : rb_is_empty rb with
    | true =>
      have hget : rb_get rb out = (rb, out, some false) := by simp [rb_get, hne]
      rw [hget]
      exact ⟨rfl, hslots, hh, ht⟩
    | false =>
      obtain ⟨x, hx⟩ := get_lt_length rb.container.elems rb.meta.tail (by omega)
      rw [rb_get_not_empty rb out x hne hx]
      refine ⟨rfl, hslots, hh, ?_⟩
      show (rb.meta.tail + 1) % SIZE_T_MOD % rb.meta.max_size < rb.meta.max_size
      exact Nat.mod_lt _ hpos
  | peek out => exact ⟨rfl, hslots, hh, ht⟩
  | clear => exact ⟨rfl, hslots, hpos, hpos⟩
theorem rb_history_step_rb (h : rb_history) (op : rb_op) :
    (rb_history_step h op).rb = rb_step h.rb op := by
  cases op with
  | add v =>
    rewrite [rb_history_step.eq_1, rb_step_add]
    generalize rb_add h.rb v = r
    obtain ⟨r1, b⟩ := r
    cases b <;> rfl
  | get out =>
    rewrite [rb_history_step.eq_2, rb_step_get]
    generalize rb_get h.rb out = r
    obtain ⟨r1, o, ret⟩ := r
    cases ret with
    | none => rfl
    | some b => cases b <;> rfl
  | peek out => rfl
  | clear => rfl

theorem rb_history_keeps_bounds (ops : List rb_op) : ∀ (h : rb_history) (M : Nat),
    h.rb.meta.max_size = M → h.rb.container.elems.length = M →
    h.rb.meta.head < M → h.rb.meta.tail < M →
    (ops.foldl rb_history_step h).rb.meta.max_size = M ∧
    (ops.foldl rb_history_step h).rb.container.elems.length = M ∧
    (ops.foldl rb_history_step h).rb.meta.head < M ∧
    (ops.foldl rb_history_step h).rb.meta.tail < M := by
  induction ops with
  | nil => intro h M h1 h2 h3 h4; exact ⟨h1, h2, h3, h4⟩
  | cons op ops ih =>
    intro h M h1 h2 h3 h4
    subst h1
    obtain ⟨k1, k2, k3, k4⟩ := rb_step_keeps_bounds h.rb op h2 h3 h4
    rw [← rb_history_step_rb] at k1 k2 k3 k4
    exact ih (rb_history_step h op) _ k1 k2 k3 k4


/-- C35. Ring buffer cursor invariant: in every state reached from a successful
`rb_create M e` by any history of `rb_add`, `rb_get`, `rb_peek` and `rb_clear` calls,
`max_size = M ≥ 1`, `head < max_size`, `tail < max_size` and the storage holds exactly
`max_size` slots; hence `container_replace` at index `head` and `container_at` at index `tail`
succeed there, so the out-of-bounds branches of `rb_add`, `rb_get` and `rb_peek` are never
taken. -/
theorem C35_rb_cursor_invariant (M e : Nat) (valid : Bool) (ok : Nat → Bool)
    (rb : ring_buffer_t) (ev : List mem_event) (ops : List rb_op)
    (hcreate : rb_create M e valid ok = .returned (some rb) ev) :
    (rb_history_run rb ops).rb.meta.max_size = M ∧ 1 ≤ M ∧
    (rb_history_run rb ops).rb.meta.head < (rb_history_run rb ops).rb.meta.max_size ∧
    (rb_history_run rb ops).rb.meta.tail < (rb_history_run rb ops).rb.meta.max_size ∧
    (rb_history_run rb ops).rb.container.elems.length
      = (rb_history_run rb ops).rb.meta.max_size ∧
    (∀ v : Elem, (container_replace (rb_history_run rb ops).rb.container v
      (rb_history_run rb ops).rb.meta.head).2 = true) ∧
    (∀ out : Elem, (container_at (rb_history_run rb ops).rb.container out
      (rb_history_run rb ops).rb.meta.tail).2 = true) := by
  obtain ⟨hrb, hM, -⟩ := rb_create_some M e valid ok rb ev hcreate
  subst hrb
  have hpos : 0 < M := by omega
  obtain ⟨k1, k2, k3, k4⟩ := rb_history_keeps_bounds ops
    { rb := rb_fresh M e, accepted := [], delivered := [] } M rfl
    (by simp only [rb_fresh, List.length_replicate]) hpos hpos
  have k1r : (rb_history_run (rb_fresh M e) ops).rb.meta.max_size = M := k1
  have k2r : (rb_history_run (rb_fresh M e) ops).rb.container.elems.length = M := k2
  have k3r : (rb_history_run (rb_fresh M e) ops).rb.meta.head < M := k3
  have k4r : (rb_history_run (rb_fresh M e) ops).rb.meta.tail < M := k4
  refine ⟨k1r, hpos, by rw [k1r]; exact k3r, by rw [k1r]; exact k4r, by rw [k1r]; exact k2r,
    ?_, ?_⟩
  · intro v
    simp only [container_replace]
    rw [if_pos (by omega)]
  · intro out
    obtain ⟨x, hx⟩ := get_lt_length (rb_history_run (rb_fresh M e) ops).rb.container.elems
      (rb_history_run (rb_fresh M e) ops).rb.meta.tail (by omega)
    simp only [container_at, hx]

theorem C35_rb_cursor_invariant_witness :
    rb_create 3 1 true alloc_always
      = .returned (some (rb_fresh 3 1))
          [.acquire .handle_block, .acquire .scratch_block, .acquire .storage,
            .acquire .meta_block] ∧
    (rb_history_run (rb_fresh 3 1) [.add [1], .add [2], .get [0], .add [3]]).rb.meta.head
      < (rb_history_run (rb_fresh 3 1) [.add [1], .add [2], .get [0], .add [3]]).rb.meta.max_size :=
  ⟨rfl,
    (C35_rb_cursor_invariant 3 1 true alloc_always (rb_fresh 3 1) _
      [.add [1], .add [2], .get [0], .add [3]] rfl).2.2.1⟩

/-! ## Theorems: bounded size of queue and stack, one-slot ring buffer -/

theorem queue_step_size_le (q : queue_t) (op : queue_op) (hc : q.meta.capacity ≠ 0)
    (h : queue_size q ≤ q.meta.capacity) :
    queue_size (queue_step q op) ≤ q.meta.capacity := by
  unfold queue_size container_size at h ⊢
  cases op with
  | add v b =>
    simp only [queue_step]
    cases hfull : queue_full q with
    | true => rw [queue_add_full q v b hfull]; exact h
    | false =>
      have hne : ¬ (q.meta.capacity ≠ 0 ∧ queue_size q = q.meta.capacity) := by
        rw [← queue_full_iff, hfull]; decide
      unfold queue_size container_size at hne
      cases b with
      | true =>
        have hadd : (queue_add q v true).1.container.elems
            = q.container.elems ++ [v] := by
          simp [queue_add, hfull, container_push_back]
        rw [hadd, List.length_append, List.length_singleton]
        omega
      | false =>
        have hadd : (queue_add q v false).1.container.elems = q.container.elems := by
          simp [queue_add, hfull, container_push_back]
        rw [hadd]
        exact h
  | get out =>
    simp only [queue_step, queue_get, container_pop_front]
    cases he : q.container.elems with
    | nil => simp only [List.length_nil]; omega
    | cons x xs =>
      rw [he] at h
      simp only [List.length_cons] at h ⊢
      omega
  | peek out => exact h
  | clear => exact Nat.zero_le _

theorem queue_run_size_le (ops : List queue_op) : ∀ q : queue_t, q.meta.capacity ≠ 0 →
    queue_size q ≤ q.meta.capacity → queue_size (queue_run q ops) ≤ q.meta.capacity := by
  induction ops with
  | nil => intro q _ h; exact h
  | cons op ops ih =>
    intro q hc h
    have hstep := queue_step_size_le q op hc h
    rw [← queue_step_meta q op] at hstep hc
    have hrun := ih (queue_step q op) hc hstep
    rw [queue_step_meta q op] at hrun
    exact hrun

theorem stack_step_size_le (s : stack_t) (op : stack_op) (hc : s.meta.capacity ≠ 0)
    (h : stack_size s ≤ s.meta.capacity) :
    stack_size (stack_step s op) ≤ s.meta.capacity := by
  unfold stack_size container_size at h ⊢
  cases op with
  | push v b =>
    simp only [stack_step]
    cases hfull : stack_full s with
    | true => rw [stack_push_full s v b hfull]; exact h
    | false =>
      have hne : ¬ (s.meta.capacity ≠ 0 ∧ stack_size s = s.meta.capacity) := by
        rw [← stack_full_iff, hfull]; decide
      unfold stack_size container_size at hne
      cases b with
      | true =>
        have hadd : (stack_push s v true).1.container.elems
            = s.container.elems ++ [v] := by
          simp [stack_push, hfull, container_push_back]
        rw [hadd, List.length_append, List.length_singleton]
        omega
      | false =>
        have hadd : (stack_push s v false).1.container.elems = s.container.elems := by
          simp [stack_push, hfull, container_push_back]
        rw [hadd]
        exact h
  | pop out =>
    simp only [stack_step, stack_pop, container_pop_back]
    cases he : s.container.elems.getLast? with
    | none => exact h
    | some x =>
      simp only [List.length_dropLast]
      omega
  | peek out => exact h
  | clear => exact Nat.zero_le _

theorem stack_run_size_le (ops : List stack_op) : ∀ s : stack_t, s.meta.capacity ≠ 0 →
    stack_size s ≤ s.meta.capacity → stack_size (stack_run s ops) ≤ s.meta.capacity := by
  induction ops with
  | nil => intro s _ h; exact h
  | cons op ops ih =>
    intro s hc h
    have hstep := stack_step_size_le s op hc h
    rw [← stack_step_meta s op] at hstep hc
    have hrun := ih (stack_step s op) hc hstep
    rw [stack_step_meta s op] at hrun
    exact hrun

/-- C36. Bounded size invariant: in every state reached from a successful `queue_create N e`
or `stack_create N e` with `N ≥ 1` by any history of add/push, get/pop, peek and clear calls,
whatever the allocator answers to each add/push, the stored capacity is still `N` and the size
is at most `N`. -/
theorem C36_bounded_size_invariant (N e : Nat) (valid : Bool) (okq oks : Nat → Bool)
    (q : queue_t) (s : stack_t) (evq evs : List mem_event)
    (qops : List queue_op) (sops : List stack_op)
    (hN : 1 ≤ N)
    (hq : queue_create N e valid okq = .returned (some q) evq)
    (hs : stack_create N e valid oks = .returned (some s) evs) :
    ((queue_run q qops).meta.capacity = N ∧ queue_size (queue_run q qops) ≤ N) ∧
    ((stack_run s sops).meta.capacity = N ∧ stack_size (stack_run s sops) ≤ N) := by
  obtain ⟨hqe, hqc, -, -⟩ := queue_create_some N e valid okq q evq hq
  obtain ⟨hse, hsc, -, -⟩ := stack_create_some N e valid oks s evs hs
  have hq0 : queue_size q ≤ q.meta.capacity := by
    simp only [queue_size, container_size, hqe, List.length_nil]; omega
  have hs0 : stack_size s ≤ s.meta.capacity := by
    simp only [stack_size, container_size, hse, List.length_nil]; omega
  have hqr := queue_run_size_le qops q (by omega) hq0
  have hsr := stack_run_size_le sops s (by omega) hs0
  rw [hqc] at hqr
  rw [hsc] at hsr
  exact ⟨⟨by rw [queue_run_meta_eq, hqc], hqr⟩, ⟨by rw [stack_run_meta_eq, hsc], hsr⟩⟩

theorem C36_bounded_size_invariant_witness :
    1 ≤ 3 ∧
    queue_create 3 4 true alloc_always
      = .returned (some sample_queue) [.acquire .handle_block, .acquire .storage,
          .acquire .meta_block] ∧
    stack_create 3 4 true alloc_always
      = .returned (some sample_stack) [.acquire .handle_block, .acquire .storage,
          .acquire .meta_block] ∧
    (((queue_run sample_queue
        [.add [1] true, .add [2] true, .add [3] true, .add [4] true, .get [0]]).meta.capacity = 3 ∧
      queue_size (queue_run sample_queue
        [.add [1] true, .add [2] true, .add [3] true, .add [4] true, .get [0]]) ≤ 3) ∧
     ((stack_run sample_stack
        [.push [1] true, .push [2] true, .push [3] true, .push [4] true, .pop [0]]).meta.capacity
          = 3 ∧
      stack_size (stack_run sample_stack
        [.push [1] true, .push [2] true, .push [3] true, .push [4] true, .pop [0]]) ≤ 3)) :=
  ⟨by decide, rfl, rfl,
    C36_bounded_size_invariant 3 4 true alloc_always alloc_always sample_queue sample_stack _ _
      [.add [1] true, .add [2] true, .add [3] true, .add [4] true, .get [0]]
      [.push [1] true, .push [2] true, .push [3] true, .push [4] true, .pop [0]]
      (by decide) rfl rfl⟩

theorem rb_one_slot_empty_full (rb : ring_buffer_t) (hmax : rb.meta.max_size = 1)
    (hh : rb.meta.head < rb.meta.max_size) (ht : rb.meta.tail < rb.meta.max_size) :
    rb_is_empty rb = true ∧ rb_is_full rb = true := by
  have hcur : rb.meta.head = rb.meta.tail := by omega
  refine ⟨rb_is_empty_eq_cursors rb hcur, ?_⟩
  unfold rb_is_full
  rw [rb_abs_diff_eq_cursors rb hcur, hmax]
  decide

theorem rb_empty_full_one_slot (rb : ring_buffer_t) (hM : rb.meta.max_size < SIZE_T_MOD)
    (hpos : 0 < rb.meta.max_size)
    (hempty : rb_is_empty rb = true) (hfull : rb_is_full rb = true) :
    rb.meta.max_size = 1 := by
  have hz : rb_abs_diff rb = 0 := of_decide_eq_true hempty
  have hle : size_t_sub rb.meta.max_size 1 ≤ int_to_size_t (rb_abs_diff rb) :=
    of_decide_eq_true hfull
  rw [hz] at hle
  have h0 : int_to_size_t 0 = 0 := by decide
  rw [h0] at hle
  unfold size_t_sub SIZE_T_MOD at hle
  unfold SIZE_T_MOD at hM
  omega

/-- C37. Empty and full coincide only for a one-slot buffer: for every ring buffer state with
`head, tail < max_size` (and `max_size` a `size_t` value), `rb_is_empty` and `rb_is_full` are
both true if and only if `max_size = 1`; and in every state reached from a successful
`rb_create 1 e` by any history of calls, `rb_is_empty` and `rb_is_full` are both true, every
`rb_add` returns false and every `rb_get` returns false, both leaving the state as it was. -/
theorem C37_rb_empty_and_full_iff_one_slot (rb : ring_buffer_t)
    (e : Nat) (valid : Bool) (ok : Nat → Bool) (rb1 : ring_buffer_t) (ev : List mem_event)
    (ops : List rb_op) (v out : Elem)
    (hh : rb.meta.head < rb.meta.max_size) (ht : rb.meta.tail < rb.meta.max_size)
    (hM : rb.meta.max_size < SIZE_T_MOD)
    (hcreate : rb_create 1 e valid ok = .returned (some rb1) ev) :
    ((rb_is_empty rb = true ∧ rb_is_full rb = true) ↔ rb.meta.max_size = 1) ∧
    rb_is_empty (rb_history_run rb1 ops).rb = true ∧
    rb_is_full (rb_history_run rb1 ops).rb = true ∧
    rb_add (rb_history_run rb1 ops).rb v = ((rb_history_run rb1 ops).rb, false) ∧
    rb_get (rb_history_run rb1 ops).rb out = ((rb_history_run rb1 ops).rb, out, some false) := by
  refine ⟨⟨fun h => rb_empty_full_one_slot rb hM (by omega) h.1 h.2,
    fun h => rb_one_slot_empty_full rb h hh ht⟩, ?_⟩
  obtain ⟨hrb, -, -⟩ := rb_create_some 1 e valid ok rb1 ev hcreate
  subst hrb
  obtain ⟨k1, -, k3, k4⟩ := rb_history_keeps_bounds ops
    { rb := rb_fresh 1 e, accepted := [], delivered := [] } 1 rfl
    (by simp only [rb_fresh, List.length_replicate]) Nat.one_pos Nat.one_pos
  have k1r : (rb_history_run (rb_fresh 1 e) ops).rb.meta.max_size = 1 := k1
  have k3r : (rb_history_run (rb_fresh 1 e) ops).rb.meta.head < 1 := k3
  have k4r : (rb_history_run (rb_fresh 1 e) ops).rb.meta.tail < 1 := k4
  obtain ⟨hempty, hfull⟩ := rb_one_slot_empty_full (rb_history_run (rb_fresh 1 e) ops).rb k1r
    (by rw [k1r]; exact k3r) (by rw [k1r]; exact k4r)
  refine ⟨hempty, hfull, rb_add_refused _ v hfull, ?_⟩
  simp only [rb_get, hempty, if_true]

theorem C37_rb_empty_and_full_iff_one_slot_witness :
    (rb_fresh 1 4).meta.head < (rb_fresh 1 4).meta.max_size ∧
    (rb_fresh 1 4).meta.tail < (rb_fresh 1 4).meta.max_size ∧
    (rb_fresh 1 4).meta.max_size < SIZE_T_MOD ∧
    rb_create 1 4 true alloc_always
      = .returned (some (rb_fresh 1 4))
          [.acquire .handle_block, .acquire .scratch_block, .acquire .storage,
            .acquire .meta_block] ∧
    (((rb_is_empty (rb_fresh 1 4) = true ∧ rb_is_full (rb_fresh 1 4) = true)
        ↔ (rb_fresh 1 4).meta.max_size = 1) ∧
     rb_is_empty (rb_history_run (rb_fresh 1 4) [.add [1, 0, 0, 0], .get [0, 0, 0, 0]]).rb
       = true ∧
     rb_is_full (rb_history_run (rb_fresh 1 4) [.add [1, 0, 0, 0], .get [0, 0, 0, 0]]).rb
       = true ∧
     rb_add (rb_history_run (rb_fresh 1 4) [.add [1, 0, 0, 0], .get [0, 0, 0, 0]]).rb
         [2, 0, 0, 0]
       = ((rb_history_run (rb_fresh 1 4) [.add [1, 0, 0, 0], .get [0, 0, 0, 0]]).rb, false) ∧
     rb_get (rb_history_run (rb_fresh 1 4) [.add [1, 0, 0, 0], .get [0, 0, 0, 0]]).rb
         [0, 0, 0, 0]
       = ((rb_history_run (rb_fresh 1 4) [.add [1, 0, 0, 0], .get [0, 0, 0, 0]]).rb,
          [0, 0, 0, 0], some false)) :=
  ⟨by decide, by decide, by decide, rfl,
    C37_rb_empty_and_full_iff_one_slot (rb_fresh 1 4) 4 true alloc_always (rb_fresh 1 4) _
      [.add [1, 0, 0, 0], .get [0, 0, 0, 0]] [2, 0, 0, 0] [0, 0, 0, 0]
      (by decide) (by decide) (by decide) rfl⟩

end UDS
